import Mathlib

/-!
# Verification of the polyline batching collection

A shallow embedding of `Source/Scene/PolylineCollection.js` (an AMD module of
a Cesium fork).  The collection owns a mutable array of polyline primitives,
tracks removals with tombstones and a lazy compaction step, counts per-property
mutations for a buffer-usage heuristic, and rebuilds a partitioned vertex
store inside `update` before issuing a three-pass stencil render.

JavaScript numbers are modelled as exact integers (`Int`); the claims under
verification involve only integer-closed arithmetic (sums of position
counts, channel scaling by 255, min/max width clamps) and never depend on
floating-point rounding or fractional values.  The `Polyline` class
itself and the `VertexArrayFacade` collaborator are not part of the sources;
the few facts needed about them are modelled from the specification and are
marked as such in their doc comments.  Fallible paths (JavaScript `throw` or a
`TypeError` from dereferencing a tombstoned `null` slot) are modelled with
`Except`/`Option`.
-/

namespace Cesium

/-- The `BufferUsage` values used by the collection (`Renderer/BufferUsage`). -/
inductive BufferUsage where
  | staticDraw
  | streamDraw
  | dynamicDraw
deriving DecidableEq, Repr

/-- The `SceneMode` values (`Scene/SceneMode`). -/
inductive SceneMode where
  | scene3D
  | scene2D
  | columbusView
  | morphing
deriving DecidableEq, Repr

/-- Primitive topology used by the draw calls (`Core/PrimitiveType`). -/
inductive PrimitiveType where
  | lines
  | triangles
deriving DecidableEq, Repr

/-- Component datatypes used by the vertex-store attributes. -/
inductive ComponentDatatype where
  | float
  | unsignedByte
deriving DecidableEq, Repr

/-- Stencil comparison functions used by the three render states. -/
inductive StencilFunction where
  | always
  | notEqual
deriving DecidableEq, Repr

/-- Stencil operations used by the three render states. -/
inductive StencilOperation where
  | keep
  | replace
deriving DecidableEq, Repr

/-- Blending states used by the three render states. -/
inductive Blending where
  | alphaBlend
deriving DecidableEq, Repr

/-- A color with four normalized channels, as stored on a polyline
(JavaScript `{red, green, blue, alpha}` objects with number fields). -/
structure ColorRGBA where
  red : Int
  green : Int
  blue : Int
  alpha : Int
deriving DecidableEq, Repr

/-- A 3D position (`Core/Cartesian3`). -/
structure Cartesian3 where
  x : Int
  y : Int
  z : Int
deriving DecidableEq, Repr

/-- Modelled from the spec: the mutable state of a single Line Primitive
(`Scene/Polyline`, not among the sources).  Per §3 of the specification a
primitive holds a visibility flag, an ordered position sequence, fill and
outline colors, two widths, a back-reference to its owning collection
(`owner`, where this collection is identified by `0`), its current slot
index, and a dirty flag summarising its `dirtyMask`. -/
structure PolylineObj where
  visible : Bool
  positions : List Cartesian3
  color : ColorRGBA
  outlineColor : ColorRGBA
  width : Int
  outlineWidth : Int
  owner : Option Nat
  index : Nat
  dirty : Bool
deriving DecidableEq, Repr

/-- The optional construction template consumed by `add`. -/
structure Template where
  visible : Option Bool := none
  positions : Option (List Cartesian3) := none
  color : Option ColorRGBA := none
  outlineColor : Option ColorRGBA := none
  width : Option Int := none
  outlineWidth : Option Int := none
deriving DecidableEq, Repr

/-- Opaque white, the default fill and outline color. -/
def whiteColor : ColorRGBA := ⟨1, 1, 1, 1⟩

/-- Modelled from the spec: `new Polyline(template, collection)` (the
`Polyline` constructor is not among the sources).  Defaults per §4.3:
visible, empty position sequence, opaque white fill and outline, unit
widths; the back-reference is set to the constructing collection. -/
def mkPolyline (t : Template) (owner : Option Nat) (index : Nat) : PolylineObj where
  visible := t.visible.getD true
  positions := t.positions.getD []
  color := t.color.getD whiteColor
  outlineColor := t.outlineColor.getD whiteColor
  width := t.width.getD 1
  outlineWidth := t.outlineWidth.getD 1
  owner := owner
  index := index
  dirty := false

/-- One attribute descriptor handed to the `VertexArrayFacade` constructor. -/
structure AttrDesc where
  index : Nat
  componentsPerAttribute : Nat
  componentDatatype : ComponentDatatype
  normalize : Bool
  usage : BufferUsage
deriving DecidableEq, Repr

/-- One call to a vertex-store attribute writer: attribute index, element
index, and the component values written. -/
structure WriteRec where
  attrIndex : Nat
  elementIndex : Nat
  components : List Int
deriving DecidableEq, Repr

/-- One realized buffer segment of the vertex store, carrying the index
buffer (if any) that draw calls against this segment use. -/
structure Segment where
  indexBuffer : Option (List Nat)
deriving DecidableEq, Repr

/-- The observable state of the `VertexArrayFacade` collaborator as driven by
the collection: the attribute descriptors and element count it was created
with, the writer calls issued, and (after `commit`) the realized segments. -/
structure VAF where
  attributes : List AttrDesc
  sizeInVertices : Nat
  writes : List WriteRec
  va : Option (List Segment)
deriving DecidableEq, Repr

/-- Modelled from the spec: one segment's addressable capacity.  Per §4.3 the
vertex store "may split into multiple segments if vertex count exceeds one
segment's addressable capacity", the capacity being bounded by the 16-bit
index range of the shared index buffer. -/
def segmentCapacity : Nat := 65536

/-- Modelled from the spec: `VertexArrayFacade.commit` (the facade is an
external collaborator, not among the sources).  Per §4.3/§6 it finalizes the
buffer writes into realized segments; the index buffer passed to it is the
one attached to every realized segment.  An empty store realizes zero
segments ("a collection with no primitives ... renders nothing", §4.3). -/
def VAF.commit (v : VAF) (indexBuffer : Option (List Nat)) : VAF :=
  { v with va := some (List.replicate ((v.sizeInVertices + (segmentCapacity - 1)) / segmentCapacity)
      { indexBuffer := indexBuffer }) }

/-- Record one writer call (`vafWriters[attr](elementIndex, components...)`). -/
def VAF.write (v : VAF) (attr elem : Nat) (comps : List Int) : VAF :=
  { v with writes := v.writes ++ [⟨attr, elem, comps⟩] }

/-- The source's `attributeIndices`: `position3D : 0, color : 1,
outlineColor : 2`. -/
def attributeIndicesPosition3D : Nat := 0

/-- Likewise, `attributeIndices.color = 1`. -/
def attributeIndicesColor : Nat := 1

/-- Likewise, `attributeIndicesOutlineColor = 2`. -/
def attributeIndicesOutlineColor : Nat := 2

/-- The source's `NUMBER_OF_PROPERTIES` (six tracked property kinds, in the order of the
`_buffersUsage` initializer: show, position, color, width, outline width,
outline color). -/
def numberOfProperties : Nat := 6

/-- The property index `POSITION_INDEX = 1` (order per the `_buffersUsage` initializer). -/
def positionIndexProp : Nat := 1

/-- The property index `COLOR_INDEX = 2`. -/
def colorIndexProp : Nat := 2

/-- The property index `OUTLINE_COLOR_INDEX = 5`. -/
def outlineColorIndexProp : Nat := 5

/-- The stencil-test state of a render state. -/
structure StencilOps where
  fail : StencilOperation
  zFail : StencilOperation
  zPass : StencilOperation
deriving DecidableEq, Repr

/-- The stencil-test portion of a render state. -/
structure StencilTest where
  enabled : Bool
  frontFunction : StencilFunction
  backFunction : StencilFunction
  reference : Nat
  mask : Int
  frontOperation : StencilOps
  backOperation : StencilOps
deriving DecidableEq, Repr

/-- Per-channel color write mask. -/
structure ColorMask where
  red : Bool
  green : Bool
  blue : Bool
  alpha : Bool
deriving DecidableEq, Repr

/-- A render state as configured by the collection.  `lineWidth` is an
`Option` because the collection clamps `this.width`/`this.outlineWidth`,
fields the constructor never initializes (JavaScript `undefined`, which the
clamp turns into `NaN`, modelled as `none`). -/
structure RenderState where
  colorMask : ColorMask
  lineWidth : Option Int
  blending : Option Blending
  stencilTest : Option StencilTest
  depthMask : Bool
  depthTestEnabled : Bool
deriving DecidableEq, Repr

/-- The whole mutable state of one `PolylineCollection` together with the
arena of every polyline object ever created for it.  Polyline handles are
indices (`Nat`) into `objs`; `slots` is `this._polylines` with `none` for a
tombstoned (`null`) slot. -/
structure World where
  objs : List PolylineObj
  slots : List (Option Nat)
  polylinesRemoved : Bool
  createVertexArray : Bool
  propertiesChanged : List Nat
  buffersUsage : List BufferUsage
  polylinesToUpdate : List Nat
  bufferUsage : BufferUsage
  bufferUsageSnapshot : Option BufferUsage
  modeSnapshot : SceneMode
  modelMatrix : Int
  modelMatrixSnapshot : Int
  morphTime : Int
  width : Option Int
  outlineWidth : Option Int
  spCreated : Bool
  rsOne : Option RenderState
  rsTwo : Option RenderState
  rsThree : Option RenderState
  uniformsBound : Bool
  vaf : Option VAF
deriving DecidableEq, Repr

/-- The state established by the `PolylineCollection` constructor: no
polylines, no pending flags, six zeroed mutation counters, six
`STATIC_DRAW` usage classifications, identity model matrix (tagged `0`),
mode snapshot `SCENE3D`, `morphTime = 0`, and no lazily-created resources.
`width`/`outlineWidth` are never initialized by the constructor
(JavaScript `undefined`). -/
def emptyWorld : World where
  objs := []
  slots := []
  polylinesRemoved := false
  createVertexArray := false
  propertiesChanged := List.replicate numberOfProperties 0
  buffersUsage := List.replicate numberOfProperties .staticDraw
  polylinesToUpdate := []
  bufferUsage := .staticDraw
  bufferUsageSnapshot := none
  modeSnapshot := .scene3D
  modelMatrix := 0
  modelMatrixSnapshot := 0
  morphTime := 0
  width := none
  outlineWidth := none
  spCreated := false
  rsOne := none
  rsTwo := none
  rsThree := none
  uniformsBound := false
  vaf := none

/-- The modulus of the mutation counters: `_propertiesChanged` is a
`Uint32Array`, so `++` wraps each entry modulo `2 ^ 32`. -/
def uint32Modulus : Nat := 2 ^ 32

namespace PolylineCollection

/-- Embeds `PolylineCollection.prototype.add`: construct a polyline from the
template with this collection as owner, set its `_index` to the current
array length, push it, and set `_createVertexArray`.  Returns the handle of
the new polyline. -/
def add (t : Template) (w : World) : World × Nat :=
  let id := w.objs.length
  let p := mkPolyline t (some 0) w.slots.length
  ({ w with objs := w.objs ++ [p],
            slots := w.slots ++ [some id],
            createVertexArray := true }, id)

/-- Embeds `PolylineCollection.prototype.contains`: true iff the argument is
non-null and its back-reference (`_getCollection()`) is this collection. -/
def contains (p : Option Nat) (w : World) : Bool :=
  match p with
  | none => false
  | some id =>
    match w.objs[id]? with
    | some o => o.owner == some 0
    | none => false

/-- Embeds `PolylineCollection.prototype.remove`: if `contains(polyline)`, null out
the slot at `polyline._index`, set `_polylinesRemoved` and
`_createVertexArray`, detach the polyline (`polyline._destroy()`, which per
§3 of the spec invalidates its collection back-reference) and return
`true`; otherwise return `false` and leave everything unchanged. -/
def remove (p : Option Nat) (w : World) : World × Bool :=
  match p with
  | none => (w, false)
  | some id =>
    match w.objs[id]? with
    | none => (w, false)
    | some o =>
      if o.owner = some 0 then
        ({ w with slots := w.slots.set o.index none,
                  polylinesRemoved := true,
                  createVertexArray := true,
                  objs := w.objs.set id { o with owner := none } }, true)
      else (w, false)

/-- Reassign `_index` densely over the surviving polylines, in order
(`polyline._index = j++` inside `_removePolylines`). -/
def reindexLive (objs : List PolylineObj) (live : List Nat) (start : Nat) : List PolylineObj :=
  match live with
  | [] => objs
  | id :: rest =>
    let objs' :=
      match objs[id]? with
      | some o => objs.set id { o with index := start }
      | none => objs
    reindexLive objs' rest (start + 1)

/-- Embeds `PolylineCollection.prototype._removePolylines`: if `_polylinesRemoved`,
clear the flag, build a new array of the non-null slots in order,
reassigning each survivor's `_index` densely. -/
def removePolylines (w : World) : World :=
  if w.polylinesRemoved then
    let live := w.slots.filterMap (fun s => s)
    { w with polylinesRemoved := false,
             slots := live.map some,
             objs := reindexLive w.objs live 0 }
  else w

/-- Embeds `PolylineCollection.prototype.get`: throws a `DeveloperError` when the
index is absent (`typeof index === "undefined"`), before any other effect;
otherwise runs the lazy compaction and returns `this._polylines[index]`
(`none` both for an out-of-range index and for a `null` slot). -/
def get (index : Option Nat) (w : World) : World × Except Unit (Option Nat) :=
  match index with
  | none => (w, .error ())
  | some i =>
    let w' := removePolylines w
    (w', .ok (w'.slots[i]?.bind (fun s => s)))

/-- Embeds `PolylineCollection.prototype.getLength`: run the lazy compaction, then
return `this._polylines.length`. -/
def getLength (w : World) : World × Nat :=
  let w' := removePolylines w
  (w', w'.slots.length)

/-- Embeds `PolylineCollection.prototype._updatePolyline`: enqueue the polyline for
update if it was not already dirty, then increment the mutation counter of
the changed property kind — modulo `2 ^ 32`, since the counters are
`Uint32Array` entries. -/
def updatePolyline (w : World) (id : Nat) (propertyChanged : Nat) : World :=
  match w.objs[id]? with
  | none => w
  | some o =>
    let w :=
      if o.dirty then w
      else { w with polylinesToUpdate := w.polylinesToUpdate ++ [id] }
    { w with propertiesChanged :=
        (w.propertiesChanged.set propertyChanged
          ((w.propertiesChanged.getD propertyChanged 0 + 1) % uint32Modulus)) }

/-- Modelled from the spec: a `Polyline` property setter (the `Polyline`
class is not among the sources).  Per §4.1 every setter notifies the owning
collection's dirty tracker exactly once per call (`_updatePolyline`) and
marks the primitive's dirty mask; on a detached primitive it only mutates
the local copy and touches no collection state.  The written value itself is
irrelevant to the claims, so only the bookkeeping is modelled. -/
def touch (w : World) (id : Nat) (propertyChanged : Nat) : World :=
  match w.objs[id]? with
  | none => w
  | some o =>
    if o.owner = some 0 then
      let w := updatePolyline w id propertyChanged
      match w.objs[id]? with
      | some o' => { w with objs := w.objs.set id { o' with dirty := true } }
      | none => w
    else w

/-- Embeds `PolylineCollection.prototype.computeNewBuffersUsage`: classify each of
the six property kinds `STATIC_DRAW` when its mutation counter is zero and
`STREAM_DRAW` otherwise, store the classifications, and return whether any
classification changed. -/
def computeNewBuffersUsage (w : World) : World × Bool :=
  let newUsage := (List.range numberOfProperties).map
    (fun k => if w.propertiesChanged.getD k 0 = 0 then BufferUsage.staticDraw
              else BufferUsage.streamDraw)
  let usageChanged := (List.range numberOfProperties).any
    (fun k => w.buffersUsage.getD k .staticDraw != newUsage.getD k .staticDraw)
  ({ w with buffersUsage := newUsage }, usageChanged)

/-- Embeds `PolylineCollection.prototype._destroyPolylines`: detach every non-null
polyline in the slot array. -/
def destroyPolylines (objs : List PolylineObj) (slots : List (Option Nat)) : List PolylineObj :=
  match slots with
  | [] => objs
  | none :: rest => destroyPolylines objs rest
  | some id :: rest =>
    let objs' :=
      match objs[id]? with
      | some o => objs.set id { o with owner := none }
      | none => objs
    destroyPolylines objs' rest

/-- Embeds `PolylineCollection.prototype.removeAll`: detach every live polyline,
reset the slot array and the pending-update queue, clear
`_polylinesRemoved`, set `_createVertexArray`.  (The mutation counters are
not touched.) -/
def removeAll (w : World) : World :=
  { w with objs := destroyPolylines w.objs w.slots,
           slots := [],
           polylinesToUpdate := [],
           polylinesRemoved := false,
           createVertexArray := true }

end PolylineCollection

/-- The slice of the rendering context the collection reads: the supported
aliased line-width range. -/
structure Ctx where
  minimumAliasedLineWidth : Int
  maximumAliasedLineWidth : Int
deriving DecidableEq, Repr

/-- A draw submission issued by `render`: topology, the vertex-array segment
drawn, and the render state used. -/
structure DrawCall where
  primitiveType : PrimitiveType
  segment : Segment
  renderState : Option RenderState
deriving DecidableEq, Repr

namespace PolylineCollection

/-- Embeds `PolylineCollection._getIndexBuffer`'s index pattern: `16 * 1024` quads,
six indices per quad (`j, j+1, j+2, j, j+2, j+3` with `j` advancing by 4). -/
def sharedIndexBufferIndices : List Nat :=
  (List.range (16 * 1024)).flatMap
    (fun q => [4 * q, 4 * q + 1, 4 * q + 2, 4 * q, 4 * q + 2, 4 * q + 3])

/-- Embeds `PolylineCollection.prototype._clampWidth`: clamp a width to the
device's aliased line-width range.  A `none` width (the collection's
`width`/`outlineWidth` fields are never initialized, so `Math.max` yields
`NaN`) stays `none`. -/
def clampWidth (ctx : Ctx) (value : Option Int) : Option Int :=
  value.map (fun v => min (max v ctx.minimumAliasedLineWidth) ctx.maximumAliasedLineWidth)

/-- Embeds `PolylineCollection.prototype._syncMorphTime`: in `SCENE3D` set
`morphTime` to 1, in `SCENE2D`/`COLUMBUS_VIEW` to 0, and leave it unchanged
while morphing. -/
def syncMorphTime (mode : SceneMode) (w : World) : World :=
  match mode with
  | .scene3D => { w with morphTime := 1 }
  | .scene2D => { w with morphTime := 0 }
  | .columbusView => { w with morphTime := 0 }
  | .morphing => w

/-- Embeds `PolylineCollection.prototype._getModelMatrix`: the collection's model
matrix in `SCENE3D`, identity while morphing.  In the 2D modes the source
reads `this.scene2D.modelMatrix` but the collection has no `scene2D` field,
so that path faults (`none`). -/
def getModelMatrix (mode : SceneMode) (w : World) : Option Int :=
  match mode with
  | .scene3D => some w.modelMatrix
  | .scene2D => none
  | .columbusView => none
  | .morphing => some 0

/-- The first render state created on first use: color writes disabled,
alpha blending, stencil always-pass with reference 0 and `REPLACE` on every
outcome. -/
def rsOneInit : RenderState where
  colorMask := ⟨false, false, false, false⟩
  lineWidth := some 1
  blending := some .alphaBlend
  stencilTest := some
    { enabled := true
      frontFunction := .always
      backFunction := .always
      reference := 0
      mask := -1
      frontOperation := ⟨.replace, .replace, .replace⟩
      backOperation := ⟨.replace, .replace, .replace⟩ }
  depthMask := true
  depthTestEnabled := false

/-- The second render state: depth writes off, alpha blending, stencil
always-pass with reference 1, `REPLACE` only on pass. -/
def rsTwoInit : RenderState where
  colorMask := ⟨true, true, true, true⟩
  lineWidth := some 1
  blending := some .alphaBlend
  stencilTest := some
    { enabled := true
      frontFunction := .always
      backFunction := .always
      reference := 1
      mask := -1
      frontOperation := ⟨.keep, .keep, .replace⟩
      backOperation := ⟨.keep, .keep, .replace⟩ }
  depthMask := false
  depthTestEnabled := false

/-- The third render state: depth writes off, alpha blending, stencil
`NOT_EQUAL` against reference 1, `KEEP` on every outcome. -/
def rsThreeInit : RenderState where
  colorMask := ⟨true, true, true, true⟩
  lineWidth := some 1
  blending := some .alphaBlend
  stencilTest := some
    { enabled := true
      frontFunction := .notEqual
      backFunction := .notEqual
      reference := 1
      mask := -1
      frontOperation := ⟨.keep, .keep, .keep⟩
      backOperation := ⟨.keep, .keep, .keep⟩ }
  depthMask := false
  depthTestEnabled := false

/-- Embeds `PolylineCollection.prototype._writePosition`: for each position `j` of
the polyline, write `(x, y, z)` to the `position3D` attribute at element
`polyline._index + j`. -/
def writePosition (v : VAF) (o : PolylineObj) : VAF :=
  o.positions.enum.foldl
    (fun v pj => v.write attributeIndicesPosition3D (o.index + pj.1) [pj.2.x, pj.2.y, pj.2.z]) v

/-- Embeds `PolylineCollection.prototype._writeColor`: for each position `j` of the
polyline, write the fill color scaled by 255 to the `color` attribute at
element `polyline._index + j`. -/
def writeColor (v : VAF) (o : PolylineObj) : VAF :=
  (List.range o.positions.length).foldl
    (fun v j => v.write attributeIndicesColor (o.index + j)
      [o.color.red * 255, o.color.green * 255, o.color.blue * 255, o.color.alpha * 255]) v

/-- Embeds `PolylineCollection.prototype._writePolyline`: `_writePosition` then
`_writeColor`. -/
def writePolyline (v : VAF) (o : PolylineObj) : VAF :=
  writeColor (writePosition v o) o

/-- Embeds `PolylineCollection.prototype._update`: sum the position counts over
`this._polylines` (dereferencing every slot, so a tombstoned `null` slot
faults, modelled by `none`), recreate the vertex store with the three
attribute descriptors sized to that count, then for each polyline in slot
order call `_clean()` and `_writePolyline`, and finally `commit(null)`. -/
def updateVertexArrays (w : World) : Option World := do
  let ids ← w.slots.mapM (fun s => s)
  let objsAtSlots ← ids.mapM (fun id => w.objs[id]?)
  let sizeInVertices := (objsAtSlots.map (fun o => o.positions.length)).sum
  let vaf0 : VAF :=
    { attributes :=
        [ { index := attributeIndicesPosition3D, componentsPerAttribute := 3,
            componentDatatype := .float, normalize := false,
            usage := w.buffersUsage.getD positionIndexProp .staticDraw },
          { index := attributeIndicesColor, componentsPerAttribute := 4,
            componentDatatype := .unsignedByte, normalize := true,
            usage := w.buffersUsage.getD colorIndexProp .staticDraw },
          { index := attributeIndicesOutlineColor, componentsPerAttribute := 4,
            componentDatatype := .unsignedByte, normalize := true,
            usage := w.buffersUsage.getD outlineColorIndexProp .staticDraw } ],
      sizeInVertices := sizeInVertices, writes := [], va := none }
  let step := fun (acc : List PolylineObj × VAF) (id : Nat) =>
    match acc.1[id]? with
    | some o => (acc.1.set id { o with dirty := false }, writePolyline acc.2 o)
    | none => acc
  let res := ids.foldl step (w.objs, vaf0)
  some { w with objs := res.1, vaf := some (res.2.commit none) }

/-- The first-use branch of `update`: create the shader program handle and
the three render states once (`if (!this._sp) { ... }`). -/
def ensureResources (w : World) : World :=
  if w.spCreated then w
  else { w with spCreated := true, rsOne := some rsOneInit,
                rsTwo := some rsTwoInit, rsThree := some rsThreeInit }

/-- The render-state section of `update`: sync the morph time for the
(hardcoded) `SCENE3D` mode, clamp the fill and outline widths against the
context, and write line width, depth mask and depth test into the three
render states (`useDepthTest` is `morphTime !== 0.0`). -/
def applyRenderStateUpdates (ctx : Ctx) (w : World) : World :=
  let w := syncMorphTime SceneMode.scene3D w
  let width := clampWidth ctx w.width
  let outlineWidth := clampWidth ctx w.outlineWidth
  let useDepthTest := w.morphTime != 0
  { w with
    rsOne := w.rsOne.map (fun r =>
      { r with lineWidth := outlineWidth, depthMask := !useDepthTest,
               depthTestEnabled := useDepthTest }),
    rsTwo := w.rsTwo.map (fun r =>
      { r with lineWidth := width, depthTestEnabled := useDepthTest }),
    rsThree := w.rsThree.map (fun r =>
      { r with lineWidth := outlineWidth, depthTestEnabled := useDepthTest }) }

/-- Embeds `PolylineCollection.prototype.update`: lazily create the shader and the
three render states on first use, sync the morph time for `SCENE3D` (the
mode is hardcoded), clamp and apply the line widths and depth flags to the
three render states, and rebuild the vertex arrays when the guard condition
fires (clearing `_createVertexArray` and snapshotting usage, mode and model
matrix first).  The returned flag records whether `_update` ran; `none`
models the fault inside `_update` when a tombstoned slot is dereferenced. -/
def update (ctx : Ctx) (w : World) : Option (World × Bool) :=
  let mode := SceneMode.scene3D
  let w := applyRenderStateUpdates ctx (ensureResources w)
  match getModelMatrix mode w with
  | none => none
  | some modelMatrix =>
    if w.createVertexArray
        || w.bufferUsageSnapshot != some w.bufferUsage
        || w.modeSnapshot != mode
        || (mode != SceneMode.scene3D && w.modelMatrixSnapshot != modelMatrix) then
      let w := { w with createVertexArray := false,
                        bufferUsageSnapshot := some w.bufferUsage,
                        modeSnapshot := mode,
                        modelMatrixSnapshot := modelMatrix }
      if mode = SceneMode.scene3D then
        let w := { w with uniformsBound := true }
        (updateVertexArrays w).map (fun w' => (w', true))
      else some (w, false)
    else some (w, false)

/-- Embeds `PolylineCollection.prototype.render`: if the vertex-array facade and
its realized `va` segments exist, issue three draw calls per segment with
`PrimitiveType.LINES` and render states `_rsOne`, `_rsTwo`, `_rsThree`. -/
def render (w : World) : List DrawCall :=
  match w.vaf with
  | none => []
  | some vaf =>
    match vaf.va with
    | none => []
    | some segs =>
      segs.flatMap (fun seg =>
        [ { primitiveType := .lines, segment := seg, renderState := w.rsOne },
          { primitiveType := .lines, segment := seg, renderState := w.rsTwo },
          { primitiveType := .lines, segment := seg, renderState := w.rsThree } ])

end PolylineCollection

/-- The handles of the live (non-tombstoned) primitives, in slot order. -/
def liveIds (w : World) : List Nat := w.slots.filterMap (fun s => s)

/-- The number of live primitives. -/
def liveCount (w : World) : Nat := (liveIds w).length

/-- The sum of the position-sequence lengths over all live primitives. -/
def liveVertexCount (w : World) : Nat :=
  (((liveIds w).filterMap (fun id => w.objs[id]?)).map (fun o => o.positions.length)).sum

/-- Executable well-formedness of a collection state, holding in every state
the collection's operations can reach: a live primitive's `_index` points at
the slot holding it, every non-null slot holds a live primitive whose
`_index` is that slot, and tombstones only exist while `_polylinesRemoved`
is set. -/
def wfB (w : World) : Bool :=
  ((List.range w.objs.length).all (fun id =>
     match w.objs[id]? with
     | some o => !(o.owner == some 0) || (w.slots[o.index]? == some (some id))
     | none => true)) &&
  ((List.range w.slots.length).all (fun i =>
     match w.slots[i]? with
     | some (some id) =>
       (match w.objs[id]? with
        | some o => o.owner == some 0 && o.index == i
        | none => false)
     | _ => true)) &&
  (w.polylinesRemoved || w.slots.all (fun s => s.isSome))

theorem wfB_fwd {w : World} (h : wfB w = true) :
    ∀ (id : Nat) (o : PolylineObj), w.objs[id]? = some o → o.owner = some 0 →
      w.slots[o.index]? = some (some id) := by
  intro id o hid hown
  have hlt : id < w.objs.length := by
    by_contra hge
    rw [List.getElem?_eq_none (by omega)] at hid
    exact Option.noConfusion hid
  have h1 := (Bool.and_eq_true _ _).mp ((Bool.and_eq_true _ _).mp h).1 |>.1
  have := List.all_eq_true.mp h1 id (List.mem_range.mpr hlt)
  simp only [hid, hown, beq_self_eq_true, Bool.not_true, Bool.false_or, beq_iff_eq] at this
  exact this

theorem wfB_bwd {w : World} (h : wfB w = true) :
    ∀ (i id : Nat), w.slots[i]? = some (some id) →
      ∃ o, w.objs[id]? = some o ∧ o.owner = some 0 ∧ o.index = i := by
  intro i id hslot
  have hlt : i < w.slots.length := by
    by_contra hge
    rw [List.getElem?_eq_none (by omega)] at hslot
    exact Option.noConfusion hslot
  have h2 := (Bool.and_eq_true _ _).mp ((Bool.and_eq_true _ _).mp h).1 |>.2
  have := List.all_eq_true.mp h2 i (List.mem_range.mpr hlt)
  simp only [hslot] at this
  cases hobj : w.objs[id]? with
  | none => rw [hobj] at this; exact Bool.noConfusion this
  | some o =>
    simp only [hobj, Bool.and_eq_true, beq_iff_eq] at this
    exact ⟨o, rfl, this.1, this.2⟩

theorem wfB_flag {w : World} (h : wfB w = true) (hflag : w.polylinesRemoved = false) :
    ∀ s ∈ w.slots, s.isSome := by
  have h3 := (Bool.and_eq_true _ _).mp h |>.2
  rw [hflag, Bool.false_or] at h3
  exact fun s hs => List.all_eq_true.mp h3 s hs

theorem filterMap_map_some (l : List Nat) : (l.map some).filterMap (fun s => s) = l := by
  induction l with
  | nil => rfl
  | cons a rest ih => simp [ih]

theorem length_filterMap_of_isSome (l : List (Option Nat))
    (h : ∀ s ∈ l, s.isSome) : (l.filterMap (fun s => s)).length = l.length := by
  induction l with
  | nil => rfl
  | cons s rest ih =>
    match s, h s (by simp) with
    | some a, _ =>
      simp only [List.filterMap_cons, List.length_cons]
      rw [ih (fun x hx => h x (by simp [hx]))]

/-- One polyline added to a fresh collection with a default template. -/
def wAdded : World := (PolylineCollection.add {} emptyWorld).1

/-- State `wAdded` after mutating the single polyline's color once (one dirty
notification for the color property kind). -/
def wTouched : World := PolylineCollection.touch wAdded 0 colorIndexProp

/-- State `wAdded` after removing its only polyline (slot 0 tombstoned). -/
def wOneRemoved : World := (PolylineCollection.remove (some 0) wAdded).1

/-- C8: `get` called with an absent index fails synchronously with the
invalid-argument `DeveloperError`, before any other effect: the collection
state it hands back is the argument state itself, so in particular no
compaction of tombstoned slots takes place. -/
theorem get_absent_index_errors_without_compaction (w : World) :
    PolylineCollection.get none w = (w, Except.error ()) := rfl

/-- C10: `get` with a defined index at least the number of live primitives
returns no primitive (`undefined`) rather than signaling an error; the only
effect is the pending compaction, after which the live sequence is
unchanged. -/
theorem get_out_of_range_returns_undefined (w : World) (i : Nat)
    (hwf : wfB w = true) (hi : liveCount w ≤ i) :
    PolylineCollection.get (some i) w
      = (PolylineCollection.removePolylines w, Except.ok none)
    ∧ liveIds (PolylineCollection.removePolylines w) = liveIds w := by
  have hkey : (PolylineCollection.removePolylines w).slots[i]?.bind (fun s => s) = none
      ∧ liveIds (PolylineCollection.removePolylines w) = liveIds w := by
    unfold PolylineCollection.removePolylines
    cases hflag : w.polylinesRemoved with
    | true =>
      simp only [hflag, if_true, reduceCtorEq, reduceIte]
      constructor
      · have hlen : (w.slots.filterMap (fun s => s)).length ≤ i := hi
        rw [List.getElem?_eq_none (by simpa using hlen)]
        rfl
      · simp only [liveIds]
        exact filterMap_map_some _
    | false =>
      simp only [hflag, Bool.false_eq_true, if_false]
      refine ⟨?_, by trivial⟩
      have hall := wfB_flag hwf hflag
      have hlen : w.slots.length ≤ i := by
        have := length_filterMap_of_isSome w.slots hall
        unfold liveCount liveIds at hi
        omega
      rw [List.getElem?_eq_none hlen]
      rfl
  exact ⟨by simp only [PolylineCollection.get, hkey.1], hkey.2⟩

/-- C10 witness: in a one-element collection whose only polyline was
removed, `get(0)` performs the compaction and returns no primitive. -/
theorem get_out_of_range_returns_undefined_witness :
    wfB wOneRemoved = true ∧ liveCount wOneRemoved ≤ 0
    ∧ PolylineCollection.get (some 0) wOneRemoved
        = (PolylineCollection.removePolylines wOneRemoved, Except.ok none) := by
  refine ⟨by decide, by decide, ?_⟩
  exact (get_out_of_range_returns_undefined wOneRemoved 0 (by decide) (by decide)).1

/-- C5: removing a live primitive returns `true`, tombstones its slot, sets
the removal-pending and rebuild-pending flags and detaches it; `remove`
returns `false` and leaves the collection state (hence `length()`)
untouched for null, for a non-member (back-reference not this collection),
for an unknown handle, and for a second remove of the same primitive. -/
theorem remove_live_primitive_spec (w : World) (id : Nat) (o : PolylineObj)
    (h1 : w.objs[id]? = some o) (h2 : o.owner = some 0) :
    (PolylineCollection.remove (some id) w).2 = true
    ∧ (PolylineCollection.remove (some id) w).1.slots = w.slots.set o.index none
    ∧ (PolylineCollection.remove (some id) w).1.polylinesRemoved = true
    ∧ (PolylineCollection.remove (some id) w).1.createVertexArray = true
    ∧ (PolylineCollection.remove (some id) w).1.objs[id]? = some { o with owner := none }
    ∧ PolylineCollection.remove none w = (w, false)
    ∧ (∀ id' o', w.objs[id']? = some o' → o'.owner ≠ some 0 →
        PolylineCollection.remove (some id') w = (w, false))
    ∧ (∀ id'', w.objs[id'']? = none →
        PolylineCollection.remove (some id'') w = (w, false))
    ∧ PolylineCollection.remove (some id) (PolylineCollection.remove (some id) w).1
        = ((PolylineCollection.remove (some id) w).1, false) := by
  have hlt : id < w.objs.length := by
    by_contra hge
    rw [List.getElem?_eq_none (by omega)] at h1
    exact Option.noConfusion h1
  have hset : (w.objs.set id { o with owner := none })[id]? = some { o with owner := none } :=
    List.getElem?_set_eq_of_lt _ (by simpa using hlt)
  refine ⟨?_, ?_, ?_, ?_, ?_, rfl, ?_, ?_, ?_⟩
  · simp [PolylineCollection.remove, h1, h2]
  · simp [PolylineCollection.remove, h1, h2]
  · simp [PolylineCollection.remove, h1, h2]
  · simp [PolylineCollection.remove, h1, h2]
  · simp only [PolylineCollection.remove, h1, h2, if_pos rfl]
    exact hset
  · intro id' o' h1' h2'
    simp [PolylineCollection.remove, h1', h2']
  · intro id'' h1''
    simp [PolylineCollection.remove, h1'']
  · simp only [PolylineCollection.remove, h1, h2, if_pos rfl] at hset ⊢
    simp [hset]

/-- C5 witness: removing the only polyline of a one-element collection
returns `true`, and a second remove of the same handle returns `false`
without changing the state. -/
theorem remove_live_primitive_spec_witness :
    wAdded.objs[0]? = some (mkPolyline {} (some 0) 0)
    ∧ (mkPolyline {} (some 0) 0).owner = some 0
    ∧ (PolylineCollection.remove (some 0) wAdded).2 = true
    ∧ PolylineCollection.remove (some 0) (PolylineCollection.remove (some 0) wAdded).1
        = ((PolylineCollection.remove (some 0) wAdded).1, false) := by
  have h := remove_live_primitive_spec wAdded 0 (mkPolyline {} (some 0) 0)
    (by decide) (by decide)
  exact ⟨by decide, by decide, h.1, h.2.2.2.2.2.2.2.2⟩

/-- C3 (amended): `computeNewBuffersUsage` classifies each property kind by
its cumulative mutation counter — which no call ever resets — `STATIC_DRAW`
when the counter is zero and `STREAM_DRAW` otherwise, and returns `true`
iff some classification differs from the stored one from the previous
call. -/
theorem computeNewBuffersUsage_cumulative (w : World) (k : Nat)
    (hk : k < numberOfProperties) :
    (PolylineCollection.computeNewBuffersUsage w).1.propertiesChanged = w.propertiesChanged
    ∧ (PolylineCollection.computeNewBuffersUsage w).1.buffersUsage.getD k .staticDraw
        = (if w.propertiesChanged.getD k 0 = 0 then BufferUsage.staticDraw
           else BufferUsage.streamDraw)
    ∧ ((PolylineCollection.computeNewBuffersUsage w).2 = true ↔
        ∃ k', k' < numberOfProperties ∧
          w.buffersUsage.getD k' .staticDraw
            ≠ (PolylineCollection.computeNewBuffersUsage w).1.buffersUsage.getD k' .staticDraw) := by
  refine ⟨rfl, ?_, ?_⟩
  · simp only [PolylineCollection.computeNewBuffersUsage,
      List.getD_eq_getElem?_getD, List.getElem?_map, List.getElem?_range hk]
    rfl
  · simp only [PolylineCollection.computeNewBuffersUsage, List.any_eq_true, List.mem_range]
    constructor
    · rintro ⟨k', hk', hp⟩
      exact ⟨k', hk', bne_iff_ne.mp hp⟩
    · rintro ⟨k', hk', hp⟩
      exact ⟨k', hk', bne_iff_ne.mpr hp⟩

/-- C3 witness: with one recorded color mutation, the classification of the
color property kind is driven by the (nonzero) cumulative counter. -/
theorem computeNewBuffersUsage_cumulative_witness :
    colorIndexProp < numberOfProperties
    ∧ (PolylineCollection.computeNewBuffersUsage wTouched).1.buffersUsage.getD
        colorIndexProp .staticDraw
      = (if wTouched.propertiesChanged.getD colorIndexProp 0 = 0 then BufferUsage.staticDraw
         else BufferUsage.streamDraw) :=
  ⟨by decide, (computeNewBuffersUsage_cumulative wTouched colorIndexProp (by decide)).2.1⟩

/-- C3 counterexample: the mutation counters are cumulative, not
"since the previous call".  After one color mutation, a first call to
`computeNewBuffersUsage` classifies the color kind `STREAM_DRAW`; a second
call with zero mutations since the previous call (the counters are
untouched in between, first conjunct) still yields `STREAM_DRAW`, where the
claim requires `STATIC_DRAW`. -/
theorem computeNewBuffersUsage_not_reset_between_calls :
    (PolylineCollection.computeNewBuffersUsage wTouched).1.propertiesChanged
      = wTouched.propertiesChanged
    ∧ (PolylineCollection.computeNewBuffersUsage wTouched).1.buffersUsage.getD
        colorIndexProp .staticDraw = .streamDraw
    ∧ (PolylineCollection.computeNewBuffersUsage
         (PolylineCollection.computeNewBuffersUsage wTouched).1).1.buffersUsage.getD
        colorIndexProp .staticDraw = .streamDraw := by
  decide

/-- A polyline template with a 2-point position sequence. -/
def tmplPosA : Template := { positions := some [⟨1, 2, 3⟩, ⟨2, 3, 4⟩] }

/-- A second polyline template with a 2-point position sequence. -/
def tmplPosB : Template := { positions := some [⟨4, 5, 6⟩, ⟨2, 3, 4⟩] }

/-- A fresh collection with two polylines of two positions each. -/
def wTwo : World :=
  (PolylineCollection.add tmplPosB (PolylineCollection.add tmplPosA emptyWorld).1).1

theorem reindexLive_not_mem (objs : List PolylineObj) (live : List Nat) (start : Nat)
    (id : Nat) (h : id ∉ live) :
    (PolylineCollection.reindexLive objs live start)[id]? = objs[id]? := by
  induction live generalizing objs start with
  | nil => rfl
  | cons id0 rest ih =>
    have hne : id ≠ id0 := fun he => h (he ▸ List.mem_cons_self id0 rest)
    have hrest : id ∉ rest := fun hm => h (List.mem_cons_of_mem _ hm)
    unfold PolylineCollection.reindexLive
    cases hobj : objs[id0]? with
    | none => exact ih objs (start + 1) hrest
    | some o =>
      rw [ih _ (start + 1) hrest]
      exact List.getElem?_set_ne hne.symm

theorem reindexLive_get (live : List Nat) (hnd : live.Nodup) :
    ∀ (objs : List PolylineObj) (start j id : Nat) (o : PolylineObj),
      live[j]? = some id → objs[id]? = some o →
      (PolylineCollection.reindexLive objs live start)[id]?
        = some { o with index := start + j } := by
  induction live with
  | nil => intro objs start j id o hj; simp at hj
  | cons id0 rest ih =>
    intro objs start j id o hj ho
    have hnotmem : id0 ∉ rest := (List.nodup_cons.mp hnd).1
    have hnd' : rest.Nodup := (List.nodup_cons.mp hnd).2
    cases j with
    | zero =>
      simp only [List.getElem?_cons_zero, Option.some.injEq] at hj
      subst hj
      have hlt : id0 < objs.length := by
        by_contra hge
        rw [List.getElem?_eq_none (by omega)] at ho
        exact Option.noConfusion ho
      unfold PolylineCollection.reindexLive
      rw [ho, reindexLive_not_mem _ _ _ _ hnotmem,
        List.getElem?_set_eq_of_lt _ (by simpa using hlt)]
      simp
    | succ j' =>
      simp only [List.getElem?_cons_succ] at hj
      have hmem : id ∈ rest := List.mem_iff_getElem?.mpr ⟨j', hj⟩
      have hne : id ≠ id0 := fun he => hnotmem (he ▸ hmem)
      have harith : start + 1 + j' = start + (j' + 1) := by omega
      unfold PolylineCollection.reindexLive
      cases hobj : objs[id0]? with
      | none =>
        have hrec := ih hnd' objs (start + 1) j' id o hj ho
        rw [harith] at hrec
        exact hrec
      | some o0 =>
        have ho' : (objs.set id0 { o0 with index := start })[id]? = some o :=
          (List.getElem?_set_ne hne.symm).trans ho
        have hrec := ih hnd' _ (start + 1) j' id o hj ho'
        rw [harith] at hrec
        exact hrec

theorem filterMap_nodup_of_inj (slots : List (Option Nat))
    (h : ∀ (i j x : Nat), slots[i]? = some (some x) → slots[j]? = some (some x) → i = j) :
    (slots.filterMap (fun s => s)).Nodup := by
  induction slots with
  | nil => simp
  | cons s rest ih =>
    have hrest : ∀ (i j x : Nat), rest[i]? = some (some x) → rest[j]? = some (some x) → i = j := by
      intro i j x hi hj
      have := h (i + 1) (j + 1) x (by simpa using hi) (by simpa using hj)
      omega
    cases s with
    | none => simpa using ih hrest
    | some a =>
      simp only [List.filterMap_cons]
      refine List.nodup_cons.mpr ⟨?_, ih hrest⟩
      intro hmem
      obtain ⟨s', hs', hsa⟩ := List.mem_filterMap.mp hmem
      have hs'' : s' = some a := hsa
      subst hs''
      obtain ⟨j, hj⟩ := List.mem_iff_getElem?.mp hs'
      have := h 0 (j + 1) a (by simp) (by simpa using hj)
      omega

theorem liveIds_nodup {w : World} (hwf : wfB w = true) : (liveIds w).Nodup := by
  refine filterMap_nodup_of_inj _ ?_
  intro i j x hi hj
  obtain ⟨o, ho, _, hoi⟩ := wfB_bwd hwf i x hi
  obtain ⟨o', ho', _, hoj⟩ := wfB_bwd hwf j x hj
  rw [ho] at ho'
  cases ho'
  omega

theorem map_some_filterMap_of_isSome (l : List (Option Nat))
    (h : ∀ s ∈ l, s.isSome) : l = (l.filterMap (fun s => s)).map some := by
  induction l with
  | nil => rfl
  | cons s rest ih =>
    match s, h s (by simp) with
    | some a, _ =>
      simp only [List.filterMap_cons, List.map_cons, List.cons.injEq]
      exact ⟨by trivial, ih (fun x hx => h x (by simp [hx]))⟩

theorem removePolylines_slots {w : World} (hwf : wfB w = true) :
    (PolylineCollection.removePolylines w).slots = (liveIds w).map some := by
  unfold PolylineCollection.removePolylines
  cases hflag : w.polylinesRemoved with
  | true => simp only [hflag, reduceIte]; rfl
  | false =>
    simp only [hflag, Bool.false_eq_true, if_false]
    exact map_some_filterMap_of_isSome w.slots (wfB_flag hwf hflag)

theorem removePolylines_flag (w : World) :
    (PolylineCollection.removePolylines w).polylinesRemoved = false := by
  cases hflag : w.polylinesRemoved <;>
    simp [PolylineCollection.removePolylines, hflag]

theorem removePolylines_dense {w : World} (hwf : wfB w = true) :
    ∀ (j id : Nat), (liveIds w)[j]? = some id →
      ∃ o : PolylineObj, w.objs[id]? = some o ∧
        (PolylineCollection.removePolylines w).objs[id]? = some { o with index := j } := by
  intro j id hj
  have hmem : id ∈ liveIds w := List.mem_iff_getElem?.mpr ⟨j, hj⟩
  obtain ⟨s', hs', hsa⟩ := List.mem_filterMap.mp hmem
  have hs'' : s' = some id := hsa
  subst hs''
  obtain ⟨i, hi⟩ := List.mem_iff_getElem?.mp hs'
  obtain ⟨o, ho, _, hoi⟩ := wfB_bwd hwf i id hi
  refine ⟨o, ho, ?_⟩
  unfold PolylineCollection.removePolylines
  cases hflag : w.polylinesRemoved with
  | true =>
    simp only [hflag, reduceIte]
    have := reindexLive_get (liveIds w) (liveIds_nodup hwf) w.objs 0 j id o hj ho
    simpa using this
  | false =>
    simp only [hflag, Bool.false_eq_true, if_false]
    have hslots := map_some_filterMap_of_isSome w.slots (wfB_flag hwf hflag)
    have hij : w.slots[j]? = some (some id) := by
      unfold liveIds at hj
      rw [hslots, List.getElem?_map, hj]
      rfl
    obtain ⟨o', ho', _, hoj⟩ := wfB_bwd hwf j id hij
    rw [ho] at ho'
    cases ho'
    rw [ho]
    subst hoj
    rfl

/-- C6: immediately after the lazy compaction (run by `get`/`getLength`),
the slot array is exactly the surviving primitives in their original
relative order, the removal-pending flag is clear, and slot indices are
dense and unique: the primitive at compacted position `j` has `_index = j`.
In particular, after removing either polyline of a two-element collection,
`get(0)` returns the survivor. -/
theorem compaction_dense_unique_order_preserving (w : World) (hwf : wfB w = true) :
    (PolylineCollection.removePolylines w).slots = (liveIds w).map some
    ∧ (PolylineCollection.removePolylines w).polylinesRemoved = false
    ∧ (∀ (j id : Nat), (liveIds w)[j]? = some id →
        ∃ o : PolylineObj, w.objs[id]? = some o ∧
          (PolylineCollection.removePolylines w).objs[id]? = some { o with index := j })
    ∧ (PolylineCollection.get (some 0) (PolylineCollection.remove (some 0) wTwo).1).2
        = Except.ok (some 1)
    ∧ (PolylineCollection.get (some 0) (PolylineCollection.remove (some 1) wTwo).1).2
        = Except.ok (some 0) :=
  ⟨removePolylines_slots hwf, removePolylines_flag w, removePolylines_dense hwf,
   by rfl, by rfl⟩

/-- C6 witness: the two-element collection with its first polyline removed
satisfies the well-formedness hypothesis, and the compacted slot array is
the single survivor. -/
theorem compaction_dense_unique_order_preserving_witness :
    wfB (PolylineCollection.remove (some 0) wTwo).1 = true
    ∧ (PolylineCollection.removePolylines (PolylineCollection.remove (some 0) wTwo).1).slots
        = (liveIds (PolylineCollection.remove (some 0) wTwo).1).map some :=
  ⟨by decide,
   (compaction_dense_unique_order_preserving (PolylineCollection.remove (some 0) wTwo).1
     (by decide)).1⟩

/-- One client operation for the add/remove trace semantics of C7. -/
inductive TraceOp where
  | addOp (t : Template)
  | removeOp (p : Option Nat)

/-- Run one trace operation, threading the collection state together with
the running count of primitives added and not successfully removed: `add`
increments it, a `remove` that returned `true` decrements it. -/
def runTraceStep (acc : World × Nat) (op : TraceOp) : World × Nat :=
  match op with
  | .addOp t => ((PolylineCollection.add t acc.1).1, acc.2 + 1)
  | .removeOp p =>
    let r := PolylineCollection.remove p acc.1
    (r.1, if r.2 then acc.2 - 1 else acc.2)

/-- Run a trace of add/remove operations from a fresh collection. -/
def runTrace (ops : List TraceOp) : World × Nat :=
  ops.foldl runTraceStep (emptyWorld, 0)

/-- The invariant maintained by add/remove: a live primitive's `_index`
points at the slot holding it, and tombstones only exist while the
removal-pending flag is set. -/
def TraceInv (w : World) : Prop :=
  (∀ (id : Nat) (o : PolylineObj), w.objs[id]? = some o → o.owner = some 0 →
      w.slots[o.index]? = some (some id))
  ∧ (w.polylinesRemoved = false → ∀ s ∈ w.slots, s.isSome)

theorem length_filterMap_set_none (slots : List (Option Nat)) (i x : Nat)
    (h : slots[i]? = some (some x)) :
    ((slots.set i none).filterMap (fun s => s)).length + 1
      = (slots.filterMap (fun s => s)).length := by
  induction slots generalizing i with
  | nil => simp at h
  | cons s rest ih =>
    cases i with
    | zero =>
      simp only [List.getElem?_cons_zero, Option.some.injEq] at h
      subst h
      simp
    | succ i' =>
      simp only [List.getElem?_cons_succ] at h
      have := ih i' h
      cases s with
      | none => simpa using this
      | some a => simpa using this

theorem getLength_eq_liveCount {w : World}
    (hflag : w.polylinesRemoved = false → ∀ s ∈ w.slots, s.isSome) :
    (PolylineCollection.getLength w).2 = liveCount w := by
  unfold PolylineCollection.getLength PolylineCollection.removePolylines
  cases hf : w.polylinesRemoved with
  | true => simp [liveCount, liveIds]
  | false =>
    simp only [hf, Bool.false_eq_true, if_false]
    exact (length_filterMap_of_isSome w.slots (hflag hf)).symm

theorem add_traceStep (t : Template) (w : World) (hinv : TraceInv w) :
    TraceInv (PolylineCollection.add t w).1
    ∧ liveCount (PolylineCollection.add t w).1 = liveCount w + 1 := by
  obtain ⟨hfwd, hfl⟩ := hinv
  refine ⟨⟨?_, ?_⟩, ?_⟩
  · intro id' o' h' hown'
    simp only [PolylineCollection.add] at h' ⊢
    have hlt : id' < w.objs.length + 1 := by
      by_contra hge
      rw [List.getElem?_eq_none (by simp; omega)] at h'
      exact Option.noConfusion h'
    rcases Nat.lt_or_ge id' w.objs.length with hc | hc
    · rw [List.getElem?_append_left hc] at h'
      have hslot := hfwd id' o' h' hown'
      have hsl : o'.index < w.slots.length := by
        by_contra hge
        rw [List.getElem?_eq_none (by omega)] at hslot
        exact Option.noConfusion hslot
      rw [List.getElem?_append_left hsl]
      exact hslot
    · have hid : id' = w.objs.length := by omega
      subst hid
      have : ((w.objs ++ [mkPolyline t (some 0) w.slots.length]))[w.objs.length]?
          = some (mkPolyline t (some 0) w.slots.length) := by simp
      rw [this] at h'
      cases h'
      show (w.slots ++ [some w.objs.length])[w.slots.length]? = _
      simp
  · intro hf s hs
    simp only [PolylineCollection.add] at hf hs
    rw [List.mem_append] at hs
    rcases hs with hs | hs
    · exact hfl hf s hs
    · simp only [List.mem_singleton] at hs
      subst hs
      rfl
  · simp only [liveCount, liveIds, PolylineCollection.add]
    rw [List.filterMap_append]
    simp

theorem remove_traceStep (p : Option Nat) (w : World) (hinv : TraceInv w) :
    TraceInv (PolylineCollection.remove p w).1
    ∧ ((PolylineCollection.remove p w).2 = true →
        liveCount (PolylineCollection.remove p w).1 + 1 = liveCount w)
    ∧ ((PolylineCollection.remove p w).2 = false →
        (PolylineCollection.remove p w).1 = w) := by
  obtain ⟨hfwd, hfl⟩ := hinv
  match p with
  | none => exact ⟨⟨hfwd, hfl⟩, by intro h; exact Bool.noConfusion h, fun _ => rfl⟩
  | some id =>
    cases hobj : w.objs[id]? with
    | none =>
      have hres : PolylineCollection.remove (some id) w = (w, false) := by
        simp [PolylineCollection.remove, hobj]
      rw [hres]
      exact ⟨⟨hfwd, hfl⟩, fun h => Bool.noConfusion h, fun _ => rfl⟩
    | some o =>
      by_cases hown : o.owner = some 0
      · have hslot := hfwd id o hobj hown
        have hres : PolylineCollection.remove (some id) w
            = ({ w with slots := w.slots.set o.index none,
                        polylinesRemoved := true,
                        createVertexArray := true,
                        objs := w.objs.set id { o with owner := none } }, true) := by
          simp [PolylineCollection.remove, hobj, hown]
        rw [hres]
        refine ⟨⟨?_, ?_⟩, ?_, ?_⟩
        · intro id' o' h' hown'
          simp only at h' ⊢
          by_cases hc : id' = id
          · subst hc
            have hlt : id' < w.objs.length := by
              by_contra hge
              rw [List.getElem?_eq_none (by omega)] at hobj
              exact Option.noConfusion hobj
            rw [List.getElem?_set_eq_of_lt _ (by simpa using hlt)] at h'
            cases h'
            exact absurd hown' (by simp)
          · rw [List.getElem?_set_ne (fun he => hc he.symm)] at h'
            have hslot' := hfwd id' o' h' hown'
            by_cases hidx : o'.index = o.index
            · rw [hidx] at hslot'
              rw [hslot] at hslot'
              cases hslot'
              exact absurd rfl hc
            · rw [List.getElem?_set_ne (fun he => hidx he.symm)]
              exact hslot'
        · intro hf
          simp at hf
        · intro _
          simp only [liveCount, liveIds]
          exact length_filterMap_set_none w.slots o.index id hslot
        · intro hf
          exact Bool.noConfusion hf
      · have hres : PolylineCollection.remove (some id) w = (w, false) := by
          simp [PolylineCollection.remove, hobj, hown]
        rw [hres]
        exact ⟨⟨hfwd, hfl⟩, fun h => Bool.noConfusion h, fun _ => rfl⟩

theorem runTrace_inv_aux (ops : List TraceOp) :
    ∀ acc : World × Nat, TraceInv acc.1 → liveCount acc.1 = acc.2 →
      TraceInv (ops.foldl runTraceStep acc).1
      ∧ liveCount (ops.foldl runTraceStep acc).1 = (ops.foldl runTraceStep acc).2 := by
  induction ops with
  | nil => exact fun acc h1 h2 => ⟨h1, h2⟩
  | cons op rest ih =>
    intro acc h1 h2
    rw [List.foldl_cons]
    cases op with
    | addOp t =>
      obtain ⟨hinv', hcnt⟩ := add_traceStep t acc.1 h1
      exact ih _ hinv' (by simp [runTraceStep, hcnt, h2])
    | removeOp p =>
      obtain ⟨hinv', hsucc, hfail⟩ := remove_traceStep p acc.1 h1
      refine ih _ hinv' ?_
      simp only [runTraceStep]
      cases hr : (PolylineCollection.remove p acc.1).2 with
      | true =>
        have := hsucc hr
        simp only [hr, if_true, reduceIte]
        omega
      | false =>
        have := hfail hr
        simp only [hr, Bool.false_eq_true, if_false]
        rw [this, h2]

/-- C7: for every sequence of add and remove operations applied to a fresh
collection, `getLength` returns exactly the number of primitives that were
added and never successfully removed (the running count incremented by each
`add`, decremented by each `remove` that returned `true`). -/
theorem length_counts_surviving_adds (ops : List TraceOp) :
    (PolylineCollection.getLength (runTrace ops).1).2 = (runTrace ops).2 := by
  unfold runTrace
  have hinit : TraceInv emptyWorld := by
    constructor
    · intro id o h
      simp [emptyWorld] at h
    · intro _ s hs
      simp [emptyWorld] at hs
  obtain ⟨hinv, hcount⟩ := runTrace_inv_aux ops (emptyWorld, 0) hinit (by rfl)
  rw [getLength_eq_liveCount hinv.2, hcount]

theorem updateVertexArrays_preserves {w w' : World}
    (h : PolylineCollection.updateVertexArrays w = some w') :
    w'.slots = w.slots ∧ w'.polylinesRemoved = w.polylinesRemoved
    ∧ w'.createVertexArray = w.createVertexArray
    ∧ w'.propertiesChanged = w.propertiesChanged
    ∧ w'.buffersUsage = w.buffersUsage ∧ w'.bufferUsage = w.bufferUsage
    ∧ w'.bufferUsageSnapshot = w.bufferUsageSnapshot
    ∧ w'.modeSnapshot = w.modeSnapshot
    ∧ w'.modelMatrixSnapshot = w.modelMatrixSnapshot
    ∧ w'.rsOne = w.rsOne ∧ w'.rsTwo = w.rsTwo ∧ w'.rsThree = w.rsThree
    ∧ w'.morphTime = w.morphTime ∧ w'.width = w.width
    ∧ w'.outlineWidth = w.outlineWidth := by
  unfold PolylineCollection.updateVertexArrays at h
  cases h1 : w.slots.mapM (fun s => s) with
  | none => rw [h1] at h; exact absurd h (by simp)
  | some ids =>
    rw [h1] at h
    simp only [Option.bind_eq_bind, Option.some_bind] at h
    cases h2 : ids.mapM (fun id => w.objs[id]?) with
    | none => rw [h2] at h; exact absurd h (by simp)
    | some objsAtSlots =>
      rw [h2] at h
      simp only [Option.bind_eq_bind, Option.some_bind, Option.some.injEq] at h
      subst h
      exact ⟨rfl, rfl, rfl, rfl, rfl, rfl, rfl, rfl, rfl, rfl, rfl, rfl, rfl, rfl, rfl⟩

theorem updateVertexArrays_vaf {w w' : World}
    (h : PolylineCollection.updateVertexArrays w = some w') :
    ∃ (v : VAF) (n : Nat), w'.vaf = some v
      ∧ v.va = some (List.replicate n { indexBuffer := none }) := by
  unfold PolylineCollection.updateVertexArrays at h
  cases h1 : w.slots.mapM (fun s => s) with
  | none => rw [h1] at h; exact absurd h (by simp)
  | some ids =>
    rw [h1] at h
    simp only [Option.bind_eq_bind, Option.some_bind] at h
    cases h2 : ids.mapM (fun id => w.objs[id]?) with
    | none => rw [h2] at h; exact absurd h (by simp)
    | some objsAtSlots =>
      rw [h2] at h
      simp only [Option.bind_eq_bind, Option.some_bind, Option.some.injEq] at h
      subst h
      exact ⟨_, _, rfl, rfl⟩

/-- The state of the collection after the resource-creation and
render-state sections of `update`, before the rebuild guard. -/
def updateMid (ctx : Ctx) (w : World) : World :=
  PolylineCollection.applyRenderStateUpdates ctx (PolylineCollection.ensureResources w)

/-- Theorem: `update` reduced to its rebuild guard: the fourth disjunct of the
source's condition is unreachable because the mode is hardcoded to
`SCENE3D`. -/
theorem update_eq (ctx : Ctx) (w : World) :
    PolylineCollection.update ctx w =
      (if (updateMid ctx w).createVertexArray
           || (updateMid ctx w).bufferUsageSnapshot != some (updateMid ctx w).bufferUsage
           || (updateMid ctx w).modeSnapshot != SceneMode.scene3D then
         (PolylineCollection.updateVertexArrays
           { (updateMid ctx w) with
             createVertexArray := false,
             bufferUsageSnapshot := some (updateMid ctx w).bufferUsage,
             modeSnapshot := SceneMode.scene3D,
             modelMatrixSnapshot := (updateMid ctx w).modelMatrix,
             uniformsBound := true }).map (fun w' => (w', true))
       else some (updateMid ctx w, false)) := by
  unfold updateMid PolylineCollection.update PolylineCollection.getModelMatrix
  simp

theorem updateMid_counters (ctx : Ctx) (w : World) :
    (updateMid ctx w).propertiesChanged = w.propertiesChanged := by
  unfold updateMid PolylineCollection.ensureResources
    PolylineCollection.applyRenderStateUpdates PolylineCollection.syncMorphTime
  cases w.spCreated <;> rfl

theorem update_counters {ctx : Ctx} {w : World} {r : World × Bool}
    (h : PolylineCollection.update ctx w = some r) :
    r.1.propertiesChanged = w.propertiesChanged := by
  rw [update_eq] at h
  split at h
  · cases hva : PolylineCollection.updateVertexArrays
        { (updateMid ctx w) with
          createVertexArray := false,
          bufferUsageSnapshot := some (updateMid ctx w).bufferUsage,
          modeSnapshot := SceneMode.scene3D,
          modelMatrixSnapshot := (updateMid ctx w).modelMatrix,
          uniformsBound := true } with
    | none => rw [hva] at h; exact absurd h (by simp)
    | some w'' =>
      rw [hva] at h
      simp only [Option.map_some', Option.some.injEq] at h
      subst h
      have := (updateVertexArrays_preserves hva).2.2.2.1
      simpa [updateMid_counters] using this
  · simp only [Option.some.injEq] at h
    subst h
    exact updateMid_counters ctx w

/-- One collection operation, for the monotonicity trace of C9. -/
inductive CollOp where
  | addOp (t : Template)
  | removeOp (p : Option Nat)
  | removeAllOp
  | touchOp (id pk : Nat)
  | getOp (i : Option Nat)
  | getLengthOp
  | computeUsageOp
  | updateOp (ctx : Ctx)

/-- Apply one collection operation to the state (`update` after a fault
leaves the observed state unchanged; `update` never writes the mutation
counters on any path). -/
def applyOp (w : World) (op : CollOp) : World :=
  match op with
  | .addOp t => (PolylineCollection.add t w).1
  | .removeOp p => (PolylineCollection.remove p w).1
  | .removeAllOp => PolylineCollection.removeAll w
  | .touchOp id pk => PolylineCollection.touch w id pk
  | .getOp i => (PolylineCollection.get i w).1
  | .getLengthOp => (PolylineCollection.getLength w).1
  | .computeUsageOp => (PolylineCollection.computeNewBuffersUsage w).1
  | .updateOp ctx => ((PolylineCollection.update ctx w).map Prod.fst).getD w

/-- Apply a sequence of collection operations. -/
def applyOps (w : World) (ops : List CollOp) : World := ops.foldl applyOp w

theorem removePolylines_counters (w : World) :
    (PolylineCollection.removePolylines w).propertiesChanged = w.propertiesChanged := by
  cases hflag : w.polylinesRemoved <;>
    simp [PolylineCollection.removePolylines, hflag]

theorem getD_set_incr_cases (l : List Nat) (i k : Nat) :
    (l.set i ((l.getD i 0 + 1) % uint32Modulus)).getD k 0 = l.getD k 0
    ∨ (l.set i ((l.getD i 0 + 1) % uint32Modulus)).getD k 0
        = (l.getD k 0 + 1) % uint32Modulus := by
  by_cases hik : k = i
  · subst hik
    by_cases hlt : k < l.length
    · right
      rw [List.getD_eq_getElem?_getD, List.getElem?_set_eq_of_lt _ (by simpa using hlt)]
      rfl
    · left
      have h1 : (l.set k ((l.getD k 0 + 1) % uint32Modulus))[k]? = none := by
        rw [List.getElem?_eq_none]
        simp only [List.length_set]
        omega
      have h2 : l[k]? = none := by
        rw [List.getElem?_eq_none]
        omega
      rw [List.getD_eq_getElem?_getD, h1, List.getD_eq_getElem?_getD, h2]
  · left
    have h1 : (l.set i ((l.getD i 0 + 1) % uint32Modulus))[k]? = l[k]? :=
      List.getElem?_set_ne (fun he => hik he.symm)
    rw [List.getD_eq_getElem?_getD, h1, ← List.getD_eq_getElem?_getD]

theorem updatePolyline_counters (w : World) (id pk : Nat) (o : PolylineObj)
    (hobj : w.objs[id]? = some o) :
    (PolylineCollection.updatePolyline w id pk).propertiesChanged
      = w.propertiesChanged.set pk
          ((w.propertiesChanged.getD pk 0 + 1) % uint32Modulus) := by
  unfold PolylineCollection.updatePolyline
  rw [hobj]
  by_cases hd : o.dirty = true <;> simp [hd]

theorem updatePolyline_objs (w : World) (id pk : Nat) :
    (PolylineCollection.updatePolyline w id pk).objs = w.objs := by
  unfold PolylineCollection.updatePolyline
  cases hobj : w.objs[id]? with
  | none => rfl
  | some o => by_cases hd : o.dirty = true <;> simp [hd]

/-- A property setter on a live primitive reduces to `_updatePolyline`
followed by setting the primitive's dirty bit. -/
theorem touch_eq (w : World) (id pk : Nat) (o : PolylineObj)
    (hobj : w.objs[id]? = some o) (hown : o.owner = some 0) :
    PolylineCollection.touch w id pk
      = { (PolylineCollection.updatePolyline w id pk) with
          objs := w.objs.set id { o with dirty := true } } := by
  have hobj2 : (PolylineCollection.updatePolyline w id pk).objs[id]? = some o := by
    rw [updatePolyline_objs]; exact hobj
  simp only [PolylineCollection.touch, hobj, hown, reduceIte, hobj2, updatePolyline_objs]

/-- One property setter on a live primitive increments its property kind's
counter modulo `2 ^ 32` and marks the primitive dirty. -/
theorem touch_step (w : World) (id pk : Nat) (o : PolylineObj)
    (hobj : w.objs[id]? = some o) (hown : o.owner = some 0) :
    (PolylineCollection.touch w id pk).propertiesChanged
      = w.propertiesChanged.set pk
          ((w.propertiesChanged.getD pk 0 + 1) % uint32Modulus)
    ∧ (PolylineCollection.touch w id pk).objs[id]? = some { o with dirty := true } := by
  have hlt : id < w.objs.length := by
    by_contra hge
    rw [List.getElem?_eq_none (by omega)] at hobj
    exact Option.noConfusion hobj
  rw [touch_eq w id pk o hobj hown]
  constructor
  · show (PolylineCollection.updatePolyline w id pk).propertiesChanged = _
    exact updatePolyline_counters w id pk o hobj
  · show (w.objs.set id { o with dirty := true })[id]? = _
    exact List.getElem?_set_eq_of_lt _ (by simpa using hlt)

theorem applyOp_counters_step (op : CollOp) (w : World) (k : Nat) :
    (applyOp w op).propertiesChanged.getD k 0 = w.propertiesChanged.getD k 0
    ∨ (applyOp w op).propertiesChanged.getD k 0
        = (w.propertiesChanged.getD k 0 + 1) % uint32Modulus := by
  cases op with
  | addOp t => exact Or.inl rfl
  | removeOp p =>
    match p with
    | none => exact Or.inl rfl
    | some id =>
      cases hobj : w.objs[id]? with
      | none => left; simp [applyOp, PolylineCollection.remove, hobj]
      | some o =>
        by_cases hown : o.owner = some 0 <;> left <;>
          simp [applyOp, PolylineCollection.remove, hobj, hown]
  | removeAllOp => exact Or.inl rfl
  | touchOp id pk =>
    cases hobj : w.objs[id]? with
    | none => left; simp [applyOp, PolylineCollection.touch, hobj]
    | some o =>
      by_cases hown : o.owner = some 0
      · have := (touch_step w id pk o hobj hown).1
        show (PolylineCollection.touch w id pk).propertiesChanged.getD k 0 = _
          ∨ (PolylineCollection.touch w id pk).propertiesChanged.getD k 0 = _
        rw [this]
        exact getD_set_incr_cases w.propertiesChanged pk k
      · left; simp [applyOp, PolylineCollection.touch, hobj, hown]
  | getOp i =>
    match i with
    | none => exact Or.inl rfl
    | some i' =>
      left
      show (PolylineCollection.removePolylines w).propertiesChanged.getD k 0 = _
      rw [removePolylines_counters]
  | getLengthOp =>
    left
    show (PolylineCollection.removePolylines w).propertiesChanged.getD k 0 = _
    rw [removePolylines_counters]
  | computeUsageOp => exact Or.inl rfl
  | updateOp ctx =>
    cases hu : PolylineCollection.update ctx w with
    | none => left; simp [applyOp, hu]
    | some r =>
      left
      simp only [applyOp, hu]
      show r.1.propertiesChanged.getD k 0 = _
      rw [update_counters hu]

/-- Short of wraparound the counters cannot return to zero: if a counter is
nonzero and the operation sequence is short enough that it cannot reach the
modulus, it stays nonzero (each operation increments it by at most one). -/
theorem applyOps_counters_nonzero (ops : List CollOp) :
    ∀ (w : World) (k : Nat), w.propertiesChanged.getD k 0 ≠ 0 →
      w.propertiesChanged.getD k 0 + ops.length < uint32Modulus →
      (applyOps w ops).propertiesChanged.getD k 0 ≠ 0
      ∧ (applyOps w ops).propertiesChanged.getD k 0
          ≤ w.propertiesChanged.getD k 0 + ops.length := by
  induction ops with
  | nil =>
    intro w k h1 h2
    exact ⟨h1, Nat.le_add_right _ _⟩
  | cons op rest ih =>
    intro w k h1 h2
    have hfold : applyOps w (op :: rest) = applyOps (applyOp w op) rest := rfl
    have hlen : (op :: rest).length = rest.length + 1 := rfl
    rw [hlen] at h2
    rcases applyOp_counters_step op w k with hs | hs
    · have hrec := ih (applyOp w op) k (by rw [hs]; exact h1) (by rw [hs]; omega)
      rw [hfold]
      exact ⟨hrec.1, by rw [hs] at hrec; omega⟩
    · have hlt : w.propertiesChanged.getD k 0 + 1 < uint32Modulus := by omega
      have hs' : (applyOp w op).propertiesChanged.getD k 0
          = w.propertiesChanged.getD k 0 + 1 := by
        rw [hs, Nat.mod_eq_of_lt hlt]
      have hrec := ih (applyOp w op) k (by rw [hs']; omega) (by rw [hs']; omega)
      rw [hfold]
      exact ⟨hrec.1, by rw [hs'] at hrec; omega⟩

theorem compute_stream_iff (w : World) (k : Nat) :
    ((PolylineCollection.computeNewBuffersUsage w).1.buffersUsage.getD k .staticDraw
        = BufferUsage.streamDraw)
      ↔ (k < numberOfProperties ∧ w.propertiesChanged.getD k 0 ≠ 0) := by
  unfold PolylineCollection.computeNewBuffersUsage
  by_cases hk : k < numberOfProperties
  · rcases eq_or_ne (w.propertiesChanged.getD k 0) 0 with h0 | h0 <;>
      simp [List.getD_eq_getElem?_getD, List.getElem?_map, List.getElem?_range hk, h0, hk]
  · have hrange : (List.range numberOfProperties)[k]? = none := by
      rw [List.getElem?_eq_none]
      simpa using Nat.le_of_not_lt hk
    simp [List.getD_eq_getElem?_getD, List.getElem?_map, hrange, hk]

theorem compute_usage_getD (w : World) (k : Nat) (hk : k < numberOfProperties) :
    (PolylineCollection.computeNewBuffersUsage w).1.buffersUsage.getD k .staticDraw
      = (if w.propertiesChanged.getD k 0 = 0 then BufferUsage.staticDraw
         else BufferUsage.streamDraw) := by
  simp only [PolylineCollection.computeNewBuffersUsage, List.getD_eq_getElem?_getD,
    List.getElem?_map, List.getElem?_range hk]
  rfl

/-- Repeated setter calls on the (live) primitive in slot 0 advance the
color counter by one per call, modulo `2 ^ 32`. -/
theorem replicate_touch_counters (n : Nat) :
    ∀ (w : World) (o : PolylineObj),
      w.objs[0]? = some o → o.owner = some 0 →
      w.propertiesChanged.getD colorIndexProp 0 < uint32Modulus →
      colorIndexProp < w.propertiesChanged.length →
      (applyOps w (List.replicate n (CollOp.touchOp 0 colorIndexProp))).propertiesChanged.getD
          colorIndexProp 0
        = (w.propertiesChanged.getD colorIndexProp 0 + n) % uint32Modulus := by
  induction n with
  | zero =>
    intro w o h1 h2 h3 h4
    exact (Nat.mod_eq_of_lt h3).symm
  | succ n ih =>
    intro w o h1 h2 h3 h4
    obtain ⟨hcnt, hobj'⟩ := touch_step w 0 colorIndexProp o h1 h2
    have hfold : applyOps w (List.replicate (n + 1) (CollOp.touchOp 0 colorIndexProp))
        = applyOps (PolylineCollection.touch w 0 colorIndexProp)
            (List.replicate n (CollOp.touchOp 0 colorIndexProp)) := by
      rw [List.replicate_succ]
      rfl
    have hgd : (PolylineCollection.touch w 0 colorIndexProp).propertiesChanged.getD
        colorIndexProp 0
        = (w.propertiesChanged.getD colorIndexProp 0 + 1) % uint32Modulus := by
      rw [hcnt, List.getD_eq_getElem?_getD,
        List.getElem?_set_eq_of_lt _ (by simpa using h4)]
      rfl
    have hlen' : colorIndexProp
        < (PolylineCollection.touch w 0 colorIndexProp).propertiesChanged.length := by
      rw [hcnt, List.length_set]
      exact h4
    have hmodpos : 0 < uint32Modulus := by norm_num [uint32Modulus]
    have hrec := ih (PolylineCollection.touch w 0 colorIndexProp)
      { o with dirty := true } hobj' h2
      (by rw [hgd]; exact Nat.mod_lt _ hmodpos) hlen'
    rw [hfold, hrec, hgd, Nat.mod_add_mod]
    congr 1
    omega

/-- C9 counterexample: monotonicity fails at the `Uint32Array` wraparound.
After one color mutation a first call to `computeNewBuffersUsage`
classifies the color kind `STREAM_DRAW`; `2 ^ 32 - 1` further dirty
notifications of that kind wrap the counter back to zero, and the next call
classifies it `STATIC_DRAW` — where the claim requires `STREAM_DRAW` on
every subsequent call. -/
theorem classification_reverts_after_counter_wrap :
    (PolylineCollection.computeNewBuffersUsage wTouched).1.buffersUsage.getD
        colorIndexProp .staticDraw = BufferUsage.streamDraw
    ∧ (PolylineCollection.computeNewBuffersUsage
        (applyOps (PolylineCollection.computeNewBuffersUsage wTouched).1
          (List.replicate (uint32Modulus - 1)
            (CollOp.touchOp 0 colorIndexProp)))).1.buffersUsage.getD
        colorIndexProp .staticDraw = BufferUsage.staticDraw := by
  constructor
  · decide
  · have h1 : (PolylineCollection.computeNewBuffersUsage wTouched).1.objs[0]?
        = some { mkPolyline {} (some 0) 0 with dirty := true } := by decide
    have h2 : ({ mkPolyline {} (some 0) 0 with dirty := true } : PolylineObj).owner
        = some 0 := by decide
    have h3 : (PolylineCollection.computeNewBuffersUsage wTouched).1.propertiesChanged.getD
        colorIndexProp 0 = 1 := by decide
    have h4 : colorIndexProp
        < (PolylineCollection.computeNewBuffersUsage wTouched).1.propertiesChanged.length := by
      decide
    have hcnt := replicate_touch_counters (uint32Modulus - 1)
      (PolylineCollection.computeNewBuffersUsage wTouched).1
      { mkPolyline {} (some 0) 0 with dirty := true } h1 h2
      (by rw [h3]; norm_num [uint32Modulus]) h4
    rw [h3] at hcnt
    have hzero : (1 + (uint32Modulus - 1)) % uint32Modulus = 0 := by
      norm_num [uint32Modulus]
    rw [hzero] at hcnt
    rw [compute_usage_getD _ _ (by norm_num [colorIndexProp, numberOfProperties]), hcnt]
    rfl

/-- C9 (amended): the buffer-usage classification is monotone short of
counter wraparound.  The mutation counters are never reset by any
collection operation (`removeAll` included) and are only ever changed by
dirty notifications (`_updatePolyline`), which increment them — modulo
`2 ^ 32`, the counters being `Uint32Array` entries.  Hence once a call to
`computeNewBuffersUsage` has classified a property kind `STREAM_DRAW`,
every subsequent call reached by fewer than `2 ^ 32 - c` further operations
(`c` the kind's counter) classifies it `STREAM_DRAW` again; only a
counter wraparound can revert the classification. -/
theorem buffersUsage_classification_monotone_below_wrap (w : World) (k : Nat)
    (h : (PolylineCollection.computeNewBuffersUsage w).1.buffersUsage.getD k .staticDraw
          = BufferUsage.streamDraw)
    (ops : List CollOp)
    (hlen : ops.length < uint32Modulus - w.propertiesChanged.getD k 0) :
    (PolylineCollection.computeNewBuffersUsage
        (applyOps (PolylineCollection.computeNewBuffersUsage w).1 ops)).1.buffersUsage.getD
        k .staticDraw = BufferUsage.streamDraw := by
  obtain ⟨hk, hnz⟩ := (compute_stream_iff w k).mp h
  apply (compute_stream_iff _ k).mpr
  refine ⟨hk, ?_⟩
  have h1 : (PolylineCollection.computeNewBuffersUsage w).1.propertiesChanged
      = w.propertiesChanged := rfl
  have h2 := applyOps_counters_nonzero ops (PolylineCollection.computeNewBuffersUsage w).1 k
    (by rw [h1]; exact hnz) (by rw [h1]; omega)
  exact h2.1

/-- C9 witness: after one color mutation, the color property kind is
classified `STREAM_DRAW` and remains so after a `removeAll` followed by an
`add` (two operations, far below the wraparound bound) and another
classification pass. -/
theorem buffersUsage_classification_monotone_below_wrap_witness :
    (PolylineCollection.computeNewBuffersUsage wTouched).1.buffersUsage.getD
        colorIndexProp .staticDraw = BufferUsage.streamDraw
    ∧ ([CollOp.removeAllOp, CollOp.addOp {}] : List CollOp).length
        < uint32Modulus - wTouched.propertiesChanged.getD colorIndexProp 0
    ∧ (PolylineCollection.computeNewBuffersUsage
        (applyOps (PolylineCollection.computeNewBuffersUsage wTouched).1
          [CollOp.removeAllOp, CollOp.addOp {}])).1.buffersUsage.getD
        colorIndexProp .staticDraw = BufferUsage.streamDraw :=
  ⟨by decide, by decide,
   buffersUsage_classification_monotone_below_wrap wTouched colorIndexProp (by decide)
     [CollOp.removeAllOp, CollOp.addOp {}] (by decide)⟩

theorem updateMid_preserves (ctx : Ctx) (w : World) :
    (updateMid ctx w).createVertexArray = w.createVertexArray
    ∧ (updateMid ctx w).bufferUsage = w.bufferUsage
    ∧ (updateMid ctx w).bufferUsageSnapshot = w.bufferUsageSnapshot
    ∧ (updateMid ctx w).modeSnapshot = w.modeSnapshot
    ∧ (updateMid ctx w).modelMatrix = w.modelMatrix
    ∧ (updateMid ctx w).slots = w.slots
    ∧ (updateMid ctx w).objs = w.objs
    ∧ (updateMid ctx w).vaf = w.vaf
    ∧ (updateMid ctx w).morphTime = 1
    ∧ (updateMid ctx w).width = w.width
    ∧ (updateMid ctx w).outlineWidth = w.outlineWidth := by
  unfold updateMid PolylineCollection.ensureResources
    PolylineCollection.applyRenderStateUpdates PolylineCollection.syncMorphTime
  cases w.spCreated <;>
    exact ⟨rfl, rfl, rfl, rfl, rfl, rfl, rfl, rfl, rfl, rfl, rfl⟩

theorem updateMid_rs (ctx : Ctx) (w : World) :
    (updateMid ctx w).rsOne = (PolylineCollection.ensureResources w).rsOne.map (fun r =>
        { r with lineWidth := PolylineCollection.clampWidth ctx w.outlineWidth,
                 depthMask := false, depthTestEnabled := true })
    ∧ (updateMid ctx w).rsTwo = (PolylineCollection.ensureResources w).rsTwo.map (fun r =>
        { r with lineWidth := PolylineCollection.clampWidth ctx w.width,
                 depthTestEnabled := true })
    ∧ (updateMid ctx w).rsThree = (PolylineCollection.ensureResources w).rsThree.map (fun r =>
        { r with lineWidth := PolylineCollection.clampWidth ctx w.outlineWidth,
                 depthTestEnabled := true }) := by
  have h1 : ((1 : Int) != 0) = true := by decide
  unfold updateMid PolylineCollection.applyRenderStateUpdates PolylineCollection.syncMorphTime
  cases hsp : w.spCreated <;>
    simp [PolylineCollection.ensureResources, hsp, h1]

/-- Whether the lazily-created render states are present whenever the
first-use creation already ran — an invariant of every reachable state. -/
def rsPresentB (w : World) : Bool :=
  !w.spCreated || (w.rsOne.isSome && w.rsTwo.isSome && w.rsThree.isSome)

/-- Whether the three render states (when present) still carry the
configuration `update` created them with (color mask, blending, stencil) —
an invariant of every reachable state, since `update` only ever mutates
their line width and depth flags afterwards. -/
def rsConfigB (w : World) : Bool :=
  !w.spCreated ||
  (match w.rsOne, w.rsTwo, w.rsThree with
   | some r1, some r2, some r3 =>
     r1.colorMask == ColorMask.mk false false false false
       && r1.blending == some Blending.alphaBlend
       && r1.stencilTest == PolylineCollection.rsOneInit.stencilTest
       && r2.blending == some Blending.alphaBlend
       && r2.stencilTest == PolylineCollection.rsTwoInit.stencilTest
       && r3.blending == some Blending.alphaBlend
       && r3.stencilTest == PolylineCollection.rsThreeInit.stencilTest
   | _, _, _ => false)

theorem updateMid_rs_config (ctx : Ctx) (w : World) (hcfg : rsConfigB w = true) :
    ∃ r1 r2 r3 : RenderState,
      (updateMid ctx w).rsOne = some r1 ∧ (updateMid ctx w).rsTwo = some r2
      ∧ (updateMid ctx w).rsThree = some r3
      ∧ r1.colorMask = ⟨false, false, false, false⟩
      ∧ r1.blending = some .alphaBlend
      ∧ r1.stencilTest = PolylineCollection.rsOneInit.stencilTest
      ∧ r1.lineWidth = PolylineCollection.clampWidth ctx w.outlineWidth
      ∧ r1.depthMask = false ∧ r1.depthTestEnabled = true
      ∧ r2.blending = some .alphaBlend
      ∧ r2.stencilTest = PolylineCollection.rsTwoInit.stencilTest
      ∧ r2.lineWidth = PolylineCollection.clampWidth ctx w.width
      ∧ r2.depthTestEnabled = true
      ∧ r3.blending = some .alphaBlend
      ∧ r3.stencilTest = PolylineCollection.rsThreeInit.stencilTest
      ∧ r3.lineWidth = PolylineCollection.clampWidth ctx w.outlineWidth
      ∧ r3.depthTestEnabled = true := by
  obtain ⟨hr1, hr2, hr3⟩ := updateMid_rs ctx w
  cases hsp : w.spCreated with
  | false =>
    have he : PolylineCollection.ensureResources w
        = { w with spCreated := true, rsOne := some PolylineCollection.rsOneInit,
                   rsTwo := some PolylineCollection.rsTwoInit,
                   rsThree := some PolylineCollection.rsThreeInit } := by
      unfold PolylineCollection.ensureResources
      rw [hsp]
      simp
    rw [he] at hr1 hr2 hr3
    exact ⟨_, _, _, hr1, hr2, hr3, rfl, rfl, rfl, rfl, rfl, rfl, rfl, rfl, rfl, rfl, rfl, rfl, rfl, rfl⟩
  | true =>
    have he : PolylineCollection.ensureResources w = w := by
      unfold PolylineCollection.ensureResources
      rw [hsp]
      simp
    rw [he] at hr1 hr2 hr3
    unfold rsConfigB at hcfg
    rw [hsp] at hcfg
    simp only [Bool.not_true, Bool.false_or] at hcfg
    cases ha1 : w.rsOne with
    | none => rw [ha1] at hcfg; exact Bool.noConfusion hcfg
    | some a1 =>
      cases ha2 : w.rsTwo with
      | none => rw [ha1, ha2] at hcfg; exact Bool.noConfusion hcfg
      | some a2 =>
        cases ha3 : w.rsThree with
        | none => rw [ha1, ha2, ha3] at hcfg; exact Bool.noConfusion hcfg
        | some a3 =>
          rw [ha1, ha2, ha3] at hcfg
          simp only [Bool.and_eq_true, beq_iff_eq] at hcfg
          obtain ⟨⟨⟨⟨⟨⟨hc1, hb1⟩, hs1⟩, hb2⟩, hs2⟩, hb3⟩, hs3⟩ := hcfg
          rw [ha1] at hr1
          rw [ha2] at hr2
          rw [ha3] at hr3
          exact ⟨_, _, _, hr1, hr2, hr3, hc1, hb1, hs1, rfl, rfl, rfl,
            hb2, hs2, rfl, rfl, hb3, hs3, rfl, rfl⟩

theorem updateMid_rs_present (ctx : Ctx) (w : World) (hp : rsPresentB w = true) :
    ∃ r1 r2 r3 : RenderState,
      (updateMid ctx w).rsOne = some r1 ∧ (updateMid ctx w).rsTwo = some r2
      ∧ (updateMid ctx w).rsThree = some r3
      ∧ r1.lineWidth = PolylineCollection.clampWidth ctx w.outlineWidth
      ∧ r1.depthMask = false ∧ r1.depthTestEnabled = true
      ∧ r2.lineWidth = PolylineCollection.clampWidth ctx w.width
      ∧ r2.depthTestEnabled = true
      ∧ r3.lineWidth = PolylineCollection.clampWidth ctx w.outlineWidth
      ∧ r3.depthTestEnabled = true := by
  obtain ⟨hr1, hr2, hr3⟩ := updateMid_rs ctx w
  cases hsp : w.spCreated with
  | false =>
    have he : PolylineCollection.ensureResources w
        = { w with spCreated := true, rsOne := some PolylineCollection.rsOneInit,
                   rsTwo := some PolylineCollection.rsTwoInit,
                   rsThree := some PolylineCollection.rsThreeInit } := by
      unfold PolylineCollection.ensureResources
      rw [hsp]
      simp
    rw [he] at hr1 hr2 hr3
    exact ⟨_, _, _, hr1, hr2, hr3, rfl, rfl, rfl, rfl, rfl, rfl, rfl⟩
  | true =>
    have he : PolylineCollection.ensureResources w = w := by
      unfold PolylineCollection.ensureResources
      rw [hsp]
      simp
    rw [he] at hr1 hr2 hr3
    unfold rsPresentB at hp
    rw [hsp] at hp
    simp only [Bool.not_true, Bool.false_or, Bool.and_eq_true, Option.isSome_iff_exists] at hp
    obtain ⟨⟨⟨a1, ha1⟩, a2, ha2⟩, a3, ha3⟩ := hp
    rw [ha1] at hr1
    rw [ha2] at hr2
    rw [ha3] at hr3
    exact ⟨_, _, _, hr1, hr2, hr3, rfl, rfl, rfl, rfl, rfl, rfl, rfl⟩

theorem update_guard_iff (ctx : Ctx) (w : World) :
    ((updateMid ctx w).createVertexArray
      || ((updateMid ctx w).bufferUsageSnapshot != some (updateMid ctx w).bufferUsage)
      || ((updateMid ctx w).modeSnapshot != SceneMode.scene3D)) = true
    ↔ (w.createVertexArray = true ∨ w.bufferUsageSnapshot ≠ some w.bufferUsage
        ∨ w.modeSnapshot ≠ SceneMode.scene3D) := by
  obtain ⟨h1, h2, h3, h4, _⟩ := updateMid_preserves ctx w
  rw [h1, h2, h3, h4]
  simp [Bool.or_eq_true, bne_iff_ne, or_assoc]

/-- C4 (amended): `update` performs a full rebuild exactly when the
rebuild-pending flag is set, the collection-level `bufferUsage` hint
differs from its snapshot, or the snapshotted mode differs from the
(hardcoded) `SCENE3D` mode; the transform clause of the source's guard is
unreachable because the active mode is always the primary 3D mode, and the
per-property usage classification (`computeNewBuffersUsage`) is never
consulted.  When it rebuilds it first clears the flag and snapshots the
usage hint, mode and transform; otherwise it leaves the primitives and the
vertex store untouched — and in both cases the render-time width and
depth-flag updates are applied to the three render states. -/
theorem update_rebuild_guard (ctx : Ctx) (w : World) (r : World × Bool)
    (hp : rsPresentB w = true)
    (h : PolylineCollection.update ctx w = some r) :
    (r.2 = true ↔ (w.createVertexArray = true ∨ w.bufferUsageSnapshot ≠ some w.bufferUsage
        ∨ w.modeSnapshot ≠ SceneMode.scene3D))
    ∧ (r.2 = true → r.1.createVertexArray = false
        ∧ r.1.bufferUsageSnapshot = some w.bufferUsage
        ∧ r.1.modeSnapshot = SceneMode.scene3D
        ∧ r.1.modelMatrixSnapshot = w.modelMatrix)
    ∧ (r.2 = false → r.1.slots = w.slots ∧ r.1.objs = w.objs ∧ r.1.vaf = w.vaf)
    ∧ (∃ r1 r2 r3 : RenderState,
        r.1.rsOne = some r1 ∧ r.1.rsTwo = some r2 ∧ r.1.rsThree = some r3
        ∧ r1.lineWidth = PolylineCollection.clampWidth ctx w.outlineWidth
        ∧ r1.depthMask = false ∧ r1.depthTestEnabled = true
        ∧ r2.lineWidth = PolylineCollection.clampWidth ctx w.width
        ∧ r2.depthTestEnabled = true
        ∧ r3.lineWidth = PolylineCollection.clampWidth ctx w.outlineWidth
        ∧ r3.depthTestEnabled = true) := by
  obtain ⟨hpm1, hpm2, hpm3, hpm4, hpm5, hpm6, hpm7, hpm8, _⟩ := updateMid_preserves ctx w
  obtain ⟨r1, r2, r3, hr1, hr2, hr3, hprops⟩ := updateMid_rs_present ctx w hp
  rw [update_eq] at h
  split at h
  case isTrue hg =>
    cases hva : PolylineCollection.updateVertexArrays
        { (updateMid ctx w) with
          createVertexArray := false,
          bufferUsageSnapshot := some (updateMid ctx w).bufferUsage,
          modeSnapshot := SceneMode.scene3D,
          modelMatrixSnapshot := (updateMid ctx w).modelMatrix,
          uniformsBound := true } with
    | none => rw [hva] at h; exact absurd h (by simp)
    | some w'' =>
      rw [hva] at h
      simp only [Option.map_some', Option.some.injEq] at h
      subst h
      obtain ⟨hv1, hv2, hv3, hv4, hv5, hv6, hv7, hv8, hv9, hv10, hv11, hv12, _⟩ :=
        updateVertexArrays_preserves hva
      refine ⟨?_, ?_, ?_, ?_⟩
      · simp only [true_iff]
        exact (update_guard_iff ctx w).mp hg
      · intro _
        refine ⟨?_, ?_, ?_, ?_⟩
        · rw [hv3]
        · rw [hv7]
          simp only
          rw [hpm2]
        · rw [hv8]
        · rw [hv9]
          simp only
          rw [hpm5]
      · intro hfalse
        exact Bool.noConfusion hfalse
      · refine ⟨r1, r2, r3, ?_, ?_, ?_, hprops⟩
        · rw [hv10]; exact hr1
        · rw [hv11]; exact hr2
        · rw [hv12]; exact hr3
  case isFalse hg =>
    simp only [Option.some.injEq] at h
    subst h
    refine ⟨?_, ?_, ?_, ?_⟩
    · simp only [Bool.false_eq_true, false_iff]
      intro hrhs
      exact hg ((update_guard_iff ctx w).mpr hrhs)
    · intro hfalse
      exact Bool.noConfusion hfalse
    · intro _
      exact ⟨hpm6, hpm7, hpm8⟩
    · exact ⟨r1, r2, r3, hr1, hr2, hr3, hprops⟩

/-- A rendering context with aliased line widths supported in `[1, 10]`. -/
def ctx1 : Ctx := ⟨1, 10⟩

/-- The outcome of the first `update` on the two-element collection. -/
def updTwoOutcome : World × Bool :=
  (PolylineCollection.update ctx1 wTwo).getD (emptyWorld, false)

/-- One-element collection whose first `update` ran, then one color
mutation: the per-property classification would flip, but no rebuild
trigger is set. -/
def wC4 : World :=
  PolylineCollection.touch
    (((PolylineCollection.update ctx1 wAdded).map Prod.fst).getD emptyWorld) 0 colorIndexProp

/-- C4 witness: on a fresh two-element collection the rebuild-pending flag
is set and `update` rebuilds; the guard characterization holds there. -/
theorem update_rebuild_guard_witness :
    rsPresentB wTwo = true
    ∧ PolylineCollection.update ctx1 wTwo = some updTwoOutcome
    ∧ (updTwoOutcome.2 = true ↔ (wTwo.createVertexArray = true
        ∨ wTwo.bufferUsageSnapshot ≠ some wTwo.bufferUsage
        ∨ wTwo.modeSnapshot ≠ SceneMode.scene3D)) :=
  ⟨by decide, by decide,
   (update_rebuild_guard ctx1 wTwo updTwoOutcome (by decide) (by decide)).1⟩

/-- C4 counterexample: after a first `update`, one color mutation makes the
per-property usage classification change (`computeNewBuffersUsage` returns
`true` here), yet the next `update` performs no rebuild — its guard never
consults the classification, only the collection-level `bufferUsage` hint
snapshot. -/
theorem update_ignores_usage_classification_change :
    (PolylineCollection.computeNewBuffersUsage wC4).2 = true
    ∧ (PolylineCollection.update ctx1 wC4).map Prod.snd = some false := by
  exact ⟨by decide, by decide⟩

/-- The two-element collection with its second polyline removed (slot 1
tombstoned, no compaction yet). -/
def wRemovedSecond : World := (PolylineCollection.remove (some 1) wTwo).1

/-- C1 (code evidence): calling `update` after a removal faults — `_update`
dereferences the tombstoned `null` slot while summing the position counts —
so the vertex store is never rebuilt to the live vertex count (2 here).
And even with no tombstones (second half, on the intact two-element
collection) the rebuild declares the three attributes and sizes the store
to 4, but never writes the outline-color attribute, writes element 1 twice
(each polyline's writes start at its slot index, so consecutive polylines
overlap) and never writes element 3. -/
theorem update_faults_on_removed_slot_and_never_writes_outline :
    PolylineCollection.update ctx1 wRemovedSecond = none
    ∧ liveVertexCount wRemovedSecond = 2
    ∧ (PolylineCollection.update ctx1 wTwo).map Prod.snd = some true
    ∧ ((PolylineCollection.update ctx1 wTwo).bind (fun r => r.1.vaf)).map VAF.sizeInVertices
        = some 4
    ∧ ((PolylineCollection.update ctx1 wTwo).bind (fun r => r.1.vaf)).map
        (fun v => v.attributes.map AttrDesc.index) = some [0, 1, 2]
    ∧ ((PolylineCollection.update ctx1 wTwo).bind (fun r => r.1.vaf)).map
        (fun v => v.writes.all (fun wr => wr.attrIndex != attributeIndicesOutlineColor))
        = some true
    ∧ ((PolylineCollection.update ctx1 wTwo).bind (fun r => r.1.vaf)).map
        (fun v => (v.writes.filter (fun wr => wr.attrIndex == attributeIndicesPosition3D
            && wr.elementIndex == 1)).length) = some 2
    ∧ ((PolylineCollection.update ctx1 wTwo).bind (fun r => r.1.vaf)).map
        (fun v => v.writes.all (fun wr => wr.elementIndex != 3)) = some true := by
  refine ⟨by decide, by decide, by decide, by decide, by decide, by decide, by decide, by decide⟩

/-- C2 (amended): after an `update` that rebuilt the vertex store, `render`
issues exactly three draw calls per realized buffer segment, all with
line-list topology: pass 1 disables color writes, draws at the clamped
outline width and unconditionally replaces the stencil with reference 0;
pass 2 draws at the clamped fill width with the stencil always passing and
set to 1 where fragments pass; pass 3 draws at the outline width only where
the stencil differs from 1, alpha-blended, leaving the stencil unchanged.
However the draw calls are not issued against the shared index buffer: the
store is committed with a null index buffer, so no segment carries one. -/
theorem render_three_passes_per_segment (ctx : Ctx) (w : World) (w' : World)
    (hcfg : rsConfigB w = true)
    (h : PolylineCollection.update ctx w = some (w', true)) :
    ∃ (v : VAF) (segs : List Segment) (r1 r2 r3 : RenderState),
      w'.vaf = some v ∧ v.va = some segs
      ∧ PolylineCollection.render w' = segs.flatMap (fun seg =>
          [ { primitiveType := PrimitiveType.lines, segment := seg, renderState := some r1 },
            { primitiveType := PrimitiveType.lines, segment := seg, renderState := some r2 },
            { primitiveType := PrimitiveType.lines, segment := seg, renderState := some r3 } ])
      ∧ (∀ seg ∈ segs, seg.indexBuffer = none)
      ∧ w'.rsOne = some r1 ∧ w'.rsTwo = some r2 ∧ w'.rsThree = some r3
      ∧ r1.colorMask = ⟨false, false, false, false⟩
      ∧ r1.lineWidth = PolylineCollection.clampWidth ctx w.outlineWidth
      ∧ r1.stencilTest = some
          { enabled := true, frontFunction := .always, backFunction := .always,
            reference := 0, mask := -1,
            frontOperation := ⟨.replace, .replace, .replace⟩,
            backOperation := ⟨.replace, .replace, .replace⟩ }
      ∧ r2.lineWidth = PolylineCollection.clampWidth ctx w.width
      ∧ r2.blending = some Blending.alphaBlend
      ∧ r2.stencilTest = some
          { enabled := true, frontFunction := .always, backFunction := .always,
            reference := 1, mask := -1,
            frontOperation := ⟨.keep, .keep, .replace⟩,
            backOperation := ⟨.keep, .keep, .replace⟩ }
      ∧ r3.lineWidth = PolylineCollection.clampWidth ctx w.outlineWidth
      ∧ r3.blending = some Blending.alphaBlend
      ∧ r3.stencilTest = some
          { enabled := true, frontFunction := .notEqual, backFunction := .notEqual,
            reference := 1, mask := -1,
            frontOperation := ⟨.keep, .keep, .keep⟩,
            backOperation := ⟨.keep, .keep, .keep⟩ } := by
  obtain ⟨r1, r2, r3, hr1, hr2, hr3, hc1, hb1, hs1, hw1, hdm1, hdt1,
    hb2, hs2, hw2, hdt2, hb3, hs3, hw3, hdt3⟩ := updateMid_rs_config ctx w hcfg
  rw [update_eq] at h
  split at h
  case isTrue hg =>
    cases hva : PolylineCollection.updateVertexArrays
        { (updateMid ctx w) with
          createVertexArray := false,
          bufferUsageSnapshot := some (updateMid ctx w).bufferUsage,
          modeSnapshot := SceneMode.scene3D,
          modelMatrixSnapshot := (updateMid ctx w).modelMatrix,
          uniformsBound := true } with
    | none => rw [hva] at h; exact absurd h (by simp)
    | some w'' =>
      rw [hva] at h
      simp only [Option.map_some', Option.some.injEq, Prod.mk.injEq] at h
      obtain ⟨hww, _⟩ := h
      subst hww
      obtain ⟨v, n, hv, hsegs⟩ := updateVertexArrays_vaf hva
      obtain ⟨_, _, _, _, _, _, _, _, _, hvrs1, hvrs2, hvrs3, _⟩ :=
        updateVertexArrays_preserves hva
      have hws1 : w''.rsOne = some r1 := by rw [hvrs1]; exact hr1
      have hws2 : w''.rsTwo = some r2 := by rw [hvrs2]; exact hr2
      have hws3 : w''.rsThree = some r3 := by rw [hvrs3]; exact hr3
      refine ⟨v, List.replicate n ⟨none⟩, r1, r2, r3, hv, hsegs, ?_, ?_,
        hws1, hws2, hws3, hc1, hw1, hs1.trans rfl, hw2, hb2, hs2.trans rfl,
        hw3, hb3, hs3.trans rfl⟩
      · simp only [PolylineCollection.render, hv, hsegs, hws1, hws2, hws3]
      · intro seg hseg
        rw [List.eq_of_mem_replicate hseg]
  case isFalse hg =>
    simp at h


/-- A fresh collection with one two-point polyline. -/
def wOneLine : World := (PolylineCollection.add tmplPosA emptyWorld).1

/-- The outcome of the first `update` on `wOneLine`. -/
def updOne : World × Bool :=
  (PolylineCollection.update ctx1 wOneLine).getD (emptyWorld, false)

/-- C2 witness: on a one-polyline collection the rebuild realizes one
segment and `render` issues its three passes with the stated states. -/
theorem render_three_passes_per_segment_witness :
    rsConfigB wOneLine = true
    ∧ PolylineCollection.update ctx1 wOneLine = some (updOne.1, true)
    ∧ ∃ (v : VAF) (segs : List Segment) (r1 r2 r3 : RenderState),
      updOne.1.vaf = some v ∧ v.va = some segs
      ∧ PolylineCollection.render updOne.1 = segs.flatMap (fun seg =>
          [ { primitiveType := PrimitiveType.lines, segment := seg, renderState := some r1 },
            { primitiveType := PrimitiveType.lines, segment := seg, renderState := some r2 },
            { primitiveType := PrimitiveType.lines, segment := seg, renderState := some r3 } ])
      ∧ (∀ seg ∈ segs, seg.indexBuffer = none)
      ∧ updOne.1.rsOne = some r1 ∧ updOne.1.rsTwo = some r2 ∧ updOne.1.rsThree = some r3
      ∧ r1.colorMask = ⟨false, false, false, false⟩
      ∧ r1.lineWidth = PolylineCollection.clampWidth ctx1 wOneLine.outlineWidth
      ∧ r1.stencilTest = some
          { enabled := true, frontFunction := .always, backFunction := .always,
            reference := 0, mask := -1,
            frontOperation := ⟨.replace, .replace, .replace⟩,
            backOperation := ⟨.replace, .replace, .replace⟩ }
      ∧ r2.lineWidth = PolylineCollection.clampWidth ctx1 wOneLine.width
      ∧ r2.blending = some Blending.alphaBlend
      ∧ r2.stencilTest = some
          { enabled := true, frontFunction := .always, backFunction := .always,
            reference := 1, mask := -1,
            frontOperation := ⟨.keep, .keep, .replace⟩,
            backOperation := ⟨.keep, .keep, .replace⟩ }
      ∧ r3.lineWidth = PolylineCollection.clampWidth ctx1 wOneLine.outlineWidth
      ∧ r3.blending = some Blending.alphaBlend
      ∧ r3.stencilTest = some
          { enabled := true, frontFunction := .notEqual, backFunction := .notEqual,
            reference := 1, mask := -1,
            frontOperation := ⟨.keep, .keep, .keep⟩,
            backOperation := ⟨.keep, .keep, .keep⟩ } :=
  ⟨by decide, by decide,
   render_three_passes_per_segment ctx1 wOneLine updOne.1 (by decide) (by decide)⟩

/-- C2 counterexample: the draw calls are not issued against the shared
index buffer.  The vertex store is committed with a null index buffer
(`this._vaf.commit(null)`; `_getIndexBuffer` is never invoked), so after a
rebuild every realized segment — and hence every one of the (non-zero
number of) draw calls — carries no index buffer. -/
theorem render_draws_carry_no_shared_index_buffer :
    PolylineCollection.update ctx1 wOneLine = some (updOne.1, true)
    ∧ PolylineCollection.render updOne.1 ≠ []
    ∧ (PolylineCollection.render updOne.1).all
        (fun d => d.segment.indexBuffer == none) = true :=
  ⟨by decide, by decide, by decide⟩

end Cesium
